import Mathlib

/-!
# Admin dashboard: login lockout and session lifecycle

A shallow embedding of the security and session code of `admin.js`.

Modelling conventions.

* Every synchronous function of the source that reads the clock takes the
  reading of `Date.now()` as an explicit argument `now` (milliseconds, an
  integer); a synchronous call is taken to happen at one instant.
* `null` timestamps are `none`; where the source subtracts a possibly-null
  timestamp, JavaScript coerces `null` to `0`, which is `toNumber`.
* The mutable globals (`securityState`, `carAnalytics`, ...) are fields of an
  explicit state that every operation receives and returns.
* DOM updates, toasts and console output are not part of the state; of the
  table render only its exception is kept, which decides what runs after it.
* An `async` function is cut at each `await` into parts that run without
  interruption; other handlers may run between two parts.
* `carAnalytics` is a plain object: `carAnalytics[key]` finds the own entry
  under `key` or else the member `Object.prototype` has under that name.
-/

namespace Admin

/-! ## Configuration (`SECURITY_CONFIG`) -/

/-- The inactivity budget of a session: 60 minutes, in milliseconds. -/
def SESSION_TIMEOUT : Int := 60 * 60 * 1000

/-- The number of failed logins that locks the account. -/
def MAX_LOGIN_ATTEMPTS : Nat := 5

/-- The length of a lockout: 15 minutes, in milliseconds. -/
def LOCKOUT_DURATION : Int := 15 * 60 * 1000

/-- The `warningThreshold` local of the inactivity callback: 2 minutes. -/
def warningThreshold : Int := 2 * 60 * 1000

/-! ## Security state -/

/-- The `securityState` global. `inactivityTimer` holds the identifier that
`setInterval` returned, or `none` for `null`. -/
structure SecurityState where
  failedLoginAttempts : Nat
  lastLoginAttempt : Option Int
  isLockedOut : Bool
  sessionStartTime : Option Int
  lastActivityTime : Option Int
  inactivityTimer : Option Nat
  warningShown : Bool
  deriving DecidableEq, Repr

/-- The initial value of `securityState`. -/
def initialSecurityState : SecurityState where
  failedLoginAttempts := 0
  lastLoginAttempt := none
  isLockedOut := false
  sessionStartTime := none
  lastActivityTime := none
  inactivityTimer := none
  warningShown := false

/-- JavaScript's numeric coercion of a timestamp that may be `null`. -/
def toNumber (t : Option Int) : Int := t.getD 0

/-- The function `isAdminLockedOut`: the state it leaves and the value it returns. -/
def isAdminLockedOut (s : SecurityState) (now : Int) : SecurityState × Bool :=
  if !s.isLockedOut then (s, false)
  else
    let timeSinceLastAttempt := now - toNumber s.lastLoginAttempt
    if timeSinceLastAttempt > LOCKOUT_DURATION then
      ({ s with isLockedOut := false, failedLoginAttempts := 0 }, false)
    else (s, true)

/-- The function `handleFailedLoginAttempt`: the state it leaves and the value it returns. -/
def handleFailedLoginAttempt (s : SecurityState) (now : Int) : SecurityState × Bool :=
  let s1 := { s with failedLoginAttempts := s.failedLoginAttempts + 1 }
  let s2 := { s1 with lastLoginAttempt := some now }
  if s2.failedLoginAttempts ≥ MAX_LOGIN_ATTEMPTS then
    ({ s2 with isLockedOut := true }, true)
  else (s2, false)

/-- The function `resetLoginAttempts`. -/
def resetLoginAttempts (s : SecurityState) : SecurityState :=
  { s with failedLoginAttempts := 0, isLockedOut := false, lastLoginAttempt := none }

/-- Consecutive calls of `handleFailedLoginAttempt`, one at each time of the
list, with the value returned by the last call (`false` when there is none). -/
def failedAttempts (s : SecurityState) (times : List Int) : SecurityState × Bool :=
  times.foldl (fun r t => handleFailedLoginAttempt r.1 t) (s, false)

/-- One call on the login-attempt part of the state. -/
inductive LoginOp where
  | failed
  | lockedOutQuery
  | reset
  deriving DecidableEq, Repr

/-- The effect of one login operation performed at time `now`. -/
def loginStep (s : SecurityState) (op : LoginOp) (now : Int) : SecurityState :=
  match op with
  | .failed => (handleFailedLoginAttempt s now).1
  | .lockedOutQuery => (isAdminLockedOut s now).1
  | .reset => resetLoginAttempts s

/-- A history of login operations, each with the time it was performed at. -/
def loginRun (s : SecurityState) : List (LoginOp × Int) → SecurityState
  | [] => s
  | (op, t) :: rest => loginRun (loginStep s op t) rest

/-- The readings of a clock that never runs backwards. -/
def nonDecreasing : List Int → Bool
  | [] => true
  | [_] => true
  | a :: b :: rest => decide (a ≤ b) && nonDecreasing (b :: rest)

/-! ## Session activity -/

/-- The function `updateLastActivity`. -/
def updateLastActivity (s : SecurityState) (now : Int) : SecurityState :=
  if !s.warningShown then { s with lastActivityTime := some now } else s

/-- The function `extendSession`. -/
def extendSession (s : SecurityState) (now : Int) : SecurityState :=
  { s with lastActivityTime := some now, warningShown := false }

/-- The `onclick` handler that `setupSessionManagement` installs on `resetSessionBtn`. -/
def resetSessionBtnClick (s : SecurityState) (now : Int) : SecurityState :=
  { s with lastActivityTime := some now, warningShown := false }

/-! ## Analytics mirror and daily reset -/

/-- One value of the `carAnalytics` object. -/
structure AnalyticsEntry where
  details_clicks : Int
  buy_clicks : Int
  daily_details_clicks : Int
  daily_buy_clicks : Int
  deriving DecidableEq, Repr

/-- The columns of a `cars` row that `loadAdminCars` and the table it renders
depend on: the identifier, the two lifetime counters (a missing or `null`
counter is `none`), and whether the `meta` column holds an object. -/
structure Car where
  id : String
  details_clicks : Option Int
  buy_clicks : Option Int
  hasMeta : Bool
  deriving DecidableEq, Repr

/-- A row of the `analytics` table as selected by `loadAdminCars`. -/
structure AnalyticsEvent where
  car_id : Option String
  event_type : Option String
  deriving DecidableEq, Repr

/-- The `carAnalytics` object: its own properties in insertion order. It is
a plain object (`{}`), so a key it does not own is looked up in
`Object.prototype`. -/
abbrev Mirror := List (String × AnalyticsEntry)

/-- The own property `key` of `carAnalytics`, `none` when it has none. -/
def Mirror.get (m : Mirror) (key : String) : Option AnalyticsEntry :=
  (m.find? (fun p => p.1 == key)).map Prod.snd

/-- The property names every plain object inherits from `Object.prototype`.
Each holds a function, and `__proto__` the prototype object itself, so all of
them are truthy. -/
def objectPrototypeNames : List String :=
  ["constructor", "__defineGetter__", "__defineSetter__", "hasOwnProperty",
   "__lookupGetter__", "__lookupSetter__", "isPrototypeOf", "propertyIsEnumerable",
   "toString", "valueOf", "__proto__", "toLocaleString"]

/-- Whether `carAnalytics[key]` is a member inherited from `Object.prototype`:
the key is one of its names and `carAnalytics` owns no entry that shadows it. -/
def Mirror.inherits (m : Mirror) (key : String) : Bool :=
  (m.get key).isNone && objectPrototypeNames.contains key

/-- Whether `carAnalytics[key]` is truthy, as the guards of the handlers and
of `loadAdminCars` test it: an own entry is an object, an inherited member is
a function or an object, and anything else is `undefined`. -/
def Mirror.truthy (m : Mirror) (key : String) : Bool :=
  (m.get key).isSome || m.inherits key

/-- The assignment `carAnalytics[key] = e`. -/
def Mirror.set (m : Mirror) (key : String) (e : AnalyticsEntry) : Mirror :=
  if (m.get key).isSome then m.map (fun p => if p.1 == key then (key, e) else p)
  else m ++ [(key, e)]

/-- An in-place update `carAnalytics[key].field++`, made where
`carAnalytics[key]` is truthy: it changes the own entry under `key`; when
there is none the increment lands on the inherited member, and the own
properties of `carAnalytics` stay as they are. -/
def Mirror.modify (m : Mirror) (key : String) (f : AnalyticsEntry → AnalyticsEntry) : Mirror :=
  m.map (fun p => if p.1 == key then (p.1, f p.2) else p)

/-- The property key JavaScript uses for a `car_id` that may be `null`. -/
def propertyKey : Option String → String
  | some s => s
  | none => "null"

/-- The loop of `resetDailyStats` over `Object.keys(carAnalytics)`. -/
def resetDailyStats (m : Mirror) : Mirror :=
  m.map (fun p => (p.1, { p.2 with daily_details_clicks := 0, daily_buy_clicks := 0 }))

/-- The kinds of recurring timer the admin module starts with `setInterval`. -/
inductive TimerKind where
  | inactivity
  | dailyReset
  deriving DecidableEq, Repr

/-- The page state the session code acts on: the globals of `admin.js`, the
browser's table of active intervals, and the two storage keys. -/
structure World where
  securityState : SecurityState
  activeTimers : List (Nat × TimerKind)
  nextTimerId : Nat
  sessionFlag : Bool
  lastStatsReset : Option Int
  currentAdminUser : Option String
  adminCars : List Car
  carAnalytics : Mirror
  deriving DecidableEq, Repr

/-- The page as loaded: no timer, nothing stored, timer identifiers start at 1. -/
def initialWorld : World where
  securityState := initialSecurityState
  activeTimers := []
  nextTimerId := 1
  sessionFlag := false
  lastStatsReset := none
  currentAdminUser := none
  adminCars := []
  carAnalytics := []

/-- The browser's `setInterval`: registers a timer under a fresh identifier and returns it. -/
def setInterval (w : World) (kind : TimerKind) : World × Nat :=
  ({ w with activeTimers := w.activeTimers ++ [(w.nextTimerId, kind)],
            nextTimerId := w.nextTimerId + 1 }, w.nextTimerId)

/-- The browser's `clearInterval`. -/
def clearInterval (w : World) (id : Nat) : World :=
  { w with activeTimers := w.activeTimers.filter (fun p => p.1 != id) }

/-- The active timers of one kind. -/
def timersOf (w : World) (kind : TimerKind) : List (Nat × TimerKind) :=
  w.activeTimers.filter (fun p => p.2 == kind)

/-- The function `checkAndResetDailyStats`. -/
def checkAndResetDailyStats (w : World) (now : Int) : World :=
  match w.lastStatsReset with
  | none => { w with lastStatsReset := some now }
  | some lastReset =>
    let timeSinceReset := now - lastReset
    let twentyFourHours : Int := 24 * 60 * 60 * 1000
    if timeSinceReset ≥ twentyFourHours then
      { w with carAnalytics := resetDailyStats w.carAnalytics, lastStatsReset := some now }
    else w

/-- The function `initDailyStatsReset`; the identifier `setInterval` returns is dropped. -/
def initDailyStatsReset (w : World) (now : Int) : World :=
  (setInterval (checkAndResetDailyStats w now) .dailyReset).1

/-- What an awaited backend query resolves to: an error, or `data` (possibly `null`). -/
inductive QueryResult (α : Type) where
  | error
  | data (rows : Option α)
  deriving Repr

/-- Step 2 of `loadAdminCars`: an entry for every car for which
`carAnalytics[car.id]` is falsy. -/
def initAnalytics (m : Mirror) : List Car → Mirror
  | [] => m
  | car :: rest =>
    if !m.truthy car.id then
      initAnalytics (m.set car.id
        { details_clicks := car.details_clicks.getD 0
          buy_clicks := car.buy_clicks.getD 0
          daily_details_clicks := 0
          daily_buy_clicks := 0 }) rest
    else initAnalytics m rest

/-- Step 4 of `loadAdminCars`: replay of one of today's events. -/
def replayEvent (m : Mirror) (event : AnalyticsEvent) : Mirror :=
  let key := propertyKey event.car_id
  if m.truthy key then
    if event.event_type = some "view" then
      m.modify key (fun e => { e with daily_details_clicks := e.daily_details_clicks + 1 })
    else if event.event_type = some "contact_click" then
      m.modify key (fun e => { e with daily_buy_clicks := e.daily_buy_clicks + 1 })
    else m
  else m

/-- Whether `renderAdminCarsTable(cars)` runs to its end on the dashboard
page, where the table element exists: building a row reads
`car.meta.category`, which throws for a row whose `meta` is `null` or
missing. The function reads `carAnalytics` and changes none of the state. -/
def renderAdminCarsTable (cars : List Car) : Bool :=
  cars.all (fun car => car.hasMeta)

/-- The function `loadAdminCars` up to its first `await`: the mirror is
emptied and the cars query is sent. -/
def loadAdminCarsBegin (w : World) : World :=
  { w with carAnalytics := [] }

/-- The function `loadAdminCars` from the answer of the cars query to its
second `await`; the Boolean tells whether it goes on to the analytics query.
A query error, or an exception of the table render, ends the function in the
`catch` block, which leaves the state as it is at that point. -/
def loadAdminCarsOnCars (w : World) (carsQuery : QueryResult (List Car)) : World × Bool :=
  match carsQuery with
  | .error => (w, false)
  | .data carsData =>
    let w2 := { w with adminCars := carsData.getD [] }
    let w3 := { w2 with carAnalytics := initAnalytics w2.carAnalytics w2.adminCars }
    if renderAdminCarsTable w3.adminCars then (w3, true) else (w3, false)

/-- The function `loadAdminCars` from the answer of the analytics query to
its end. A query error, a `null` event list, or an exception of the second
table render, ends it in the `catch` block before `initDailyStatsReset`. -/
def loadAdminCarsOnAnalytics (w : World) (now : Int)
    (analyticsQuery : QueryResult (List AnalyticsEvent)) : World :=
  match analyticsQuery with
  | .error => w
  | .data none => w
  | .data (some analyticsData) =>
    let w4 := { w with carAnalytics := analyticsData.foldl replayEvent w.carAnalytics }
    if renderAdminCarsTable w4.adminCars then initDailyStatsReset w4 now else w4

/-- A run of `loadAdminCars` during which the page handles nothing else: its
three parts one after the other, given what its two queries resolve to. Runs
in which events are handled while it awaits are sequences of the three parts
and of the handlers (see `Op`). -/
def loadAdminCars (w : World) (now : Int) (carsQuery : QueryResult (List Car))
    (analyticsQuery : QueryResult (List AnalyticsEvent)) : World :=
  let afterCars := loadAdminCarsOnCars (loadAdminCarsBegin w) carsQuery
  if afterCars.2 then loadAdminCarsOnAnalytics afterCars.1 now analyticsQuery
  else afterCars.1

/-- The entry the handlers create for an identifier they have not seen. -/
def zeroEntry : AnalyticsEntry :=
  { details_clicks := 0, buy_clicks := 0, daily_details_clicks := 0, daily_buy_clicks := 0 }

/-- The function `handleCarViewTracked`, for the `carId` of the event's
detail (`none` when it is missing; the empty string is falsy). -/
def handleCarViewTracked (m : Mirror) (carId : Option String) : Mirror :=
  match carId with
  | none => m
  | some id =>
    if id ≠ "" then
      let m1 := if !m.truthy id then m.set id zeroEntry else m
      let m2 := m1.modify id (fun e => { e with details_clicks := e.details_clicks + 1 })
      m2.modify id (fun e => { e with daily_details_clicks := e.daily_details_clicks + 1 })
    else m

/-- The callback `subscribeToAnalytics` registers for INSERT notifications,
applied to `payload.new`. -/
def subscribeToAnalyticsOnInsert (m : Mirror) (payload : AnalyticsEvent) : Mirror :=
  match payload.car_id, payload.event_type with
  | some car_id, some event_type =>
    if car_id ≠ "" ∧ event_type ≠ "" then
      let m1 := if !m.truthy car_id then m.set car_id zeroEntry else m
      if event_type = "view" then
        m1.modify car_id (fun e => { e with daily_details_clicks := e.daily_details_clicks + 1 })
      else if event_type = "contact_click" then
        m1.modify car_id (fun e => { e with daily_buy_clicks := e.daily_buy_clicks + 1 })
      else m1
    else m
  | _, _ => m

/-- The function `clearSessionManagement`; the identifier `0` is falsy. -/
def clearSessionManagement (w : World) : World :=
  match w.securityState.inactivityTimer with
  | some id => if id ≠ 0 then clearInterval w id else w
  | none => w

/-- The function `setupSessionManagement`, up to the registration of the
inactivity callback. -/
def setupSessionManagement (w : World) (now : Int) : World :=
  let w1 := clearSessionManagement w
  let w2 := { w1 with securityState :=
    { w1.securityState with sessionStartTime := some now, lastActivityTime := some now,
                            warningShown := false } }
  let r := setInterval w2 .inactivity
  { r.1 with securityState := { r.1.securityState with inactivityTimer := some r.2 } }

/-- The part of `handleLogout` that runs before `supabase.auth.signOut()` is
awaited: the timer is cleared and the session flag removed, then the sign-out
call is issued. -/
def handleLogoutSync (w : World) : World :=
  let w1 := clearSessionManagement w
  { w1 with sessionFlag := false }

/-- The part of `handleLogout` that runs once the sign-out call has settled;
`signOutOk` is false when it returned an error or threw. -/
def handleLogoutResume (w : World) (signOutOk : Bool) : World :=
  if signOutOk then { w with currentAdminUser := none, adminCars := [], carAnalytics := [] }
  else w

/-- The function `handleLogout`, given how the sign-out call settles. -/
def handleLogout (w : World) (signOutOk : Bool) : World :=
  handleLogoutResume (handleLogoutSync w) signOutOk

/-- The callback `setupSessionManagement` passes to `setInterval`, run at
time `now`: the state it leaves, and whether it called `handleLogout` (whose
synchronous part is included). -/
def inactivityCheck (w : World) (now : Int) : World × Bool :=
  let inactiveTime := now - toNumber w.securityState.lastActivityTime
  let timeLeft := SESSION_TIMEOUT - inactiveTime
  if timeLeft ≤ 0 then (handleLogoutSync w, true)
  else if timeLeft ≤ warningThreshold then
    if !w.securityState.warningShown then
      ({ w with securityState := { w.securityState with warningShown := true } }, false)
    else (w, false)
  else (w, false)

/-- The `if (data.user)` branch of `handleAdminLogin`, up to its call of `loadAdminCars`. -/
def loginSucceeded (w : World) (user : String) (now : Int) : World :=
  let w1 := { w with securityState := resetLoginAttempts w.securityState }
  let w2 := { w1 with sessionFlag := true }
  let w3 := { w2 with currentAdminUser := some user }
  setupSessionManagement w3 now

/-- The events that drive the page once it is loaded. A run of
`loadAdminCars` is either one event, when nothing else is handled while it
awaits, or its three parts as separate events with others in between. -/
inductive Op where
  | loginSucceeded (user : String) (now : Int)
  | setupSessionManagement (now : Int)
  | inactivityCheck (now : Int)
  | updateLastActivity (now : Int)
  | extendSession (now : Int)
  | resetSessionBtnClick (now : Int)
  | loadAdminCars (now : Int) (carsQuery : QueryResult (List Car))
      (analyticsQuery : QueryResult (List AnalyticsEvent))
  | dailyCheck (now : Int)
  | handleLogoutSync
  | handleLogoutResume (signOutOk : Bool)
  | loadAdminCarsBegin
  | loadAdminCarsOnCars (carsQuery : QueryResult (List Car))
  | loadAdminCarsOnAnalytics (now : Int) (analyticsQuery : QueryResult (List AnalyticsEvent))
  | carViewTracked (carId : Option String)
  | analyticsInsert (payload : AnalyticsEvent)

/-- The effect of one event. -/
def step (w : World) : Op → World
  | .loginSucceeded user now => loginSucceeded w user now
  | .setupSessionManagement now => setupSessionManagement w now
  | .inactivityCheck now => (inactivityCheck w now).1
  | .updateLastActivity now =>
    { w with securityState := updateLastActivity w.securityState now }
  | .extendSession now => { w with securityState := extendSession w.securityState now }
  | .resetSessionBtnClick now =>
    { w with securityState := resetSessionBtnClick w.securityState now }
  | .loadAdminCars now carsQuery analyticsQuery => loadAdminCars w now carsQuery analyticsQuery
  | .dailyCheck now => checkAndResetDailyStats w now
  | .handleLogoutSync => handleLogoutSync w
  | .handleLogoutResume signOutOk => handleLogoutResume w signOutOk
  | .loadAdminCarsBegin => loadAdminCarsBegin w
  | .loadAdminCarsOnCars carsQuery => (loadAdminCarsOnCars w carsQuery).1
  | .loadAdminCarsOnAnalytics now analyticsQuery =>
    loadAdminCarsOnAnalytics w now analyticsQuery
  | .carViewTracked carId =>
    { w with carAnalytics := handleCarViewTracked w.carAnalytics carId }
  | .analyticsInsert payload =>
    { w with carAnalytics := subscribeToAnalyticsOnInsert w.carAnalytics payload }

/-- The page after a history of events. -/
def run (w : World) (ops : List Op) : World := ops.foldl step w

/-- Consecutive calls of `setupSessionManagement`, one at each time of the list. -/
def setups (w : World) (times : List Int) : World := times.foldl setupSessionManagement w

/-- The timer bookkeeping is consistent: identifiers are positive, and an
active inactivity timer is the one `securityState.inactivityTimer` names. -/
def TimersOk (w : World) : Prop :=
  0 < w.nextTimerId ∧
  (∀ id, w.securityState.inactivityTimer = some id → 0 < id) ∧
  (timersOf w .inactivity = [] ∨
    ∃ id, w.securityState.inactivityTimer = some id ∧ timersOf w .inactivity = [(id, .inactivity)])

/-- The lock flag is set only in states whose counter has reached the maximum. -/
def LockedImpliesMax (s : SecurityState) : Prop :=
  s.isLockedOut = true → MAX_LOGIN_ATTEMPTS ≤ s.failedLoginAttempts

/-! ## Credential checks

A JavaScript string is modelled by the list of its characters. The regular
expressions of the source carry no `u` flag and name ASCII characters and the
class `\s` only, so a character outside the basic plane (two UTF-16 code
units, neither of them in any named class) behaves as one character that is
in no named class; only `length` sees the difference, which `utf16Length`
accounts for. -/

/-- The value of `password.length`: the number of UTF-16 code units. -/
def utf16Length (s : List Char) : Nat :=
  (s.map (fun c => if c.toNat ≥ 65536 then 2 else 1)).sum

/-- The field `SECURITY_CONFIG.PASSWORD_MIN_LENGTH`. -/
def PASSWORD_MIN_LENGTH : Nat := 8

/-- The class `[A-Z]`. -/
def isUpper (c : Char) : Bool := decide ('A' ≤ c) && decide (c ≤ 'Z')

/-- The class `[a-z]`. -/
def isLower (c : Char) : Bool := decide ('a' ≤ c) && decide (c ≤ 'z')

/-- The class `\d`, which in JavaScript is `[0-9]`. -/
def isDigit (c : Char) : Bool := decide ('0' ≤ c) && decide (c ≤ '9')

/-- The class `[@$!%*?&]`. -/
def isSymbol (c : Char) : Bool :=
  c == '@' || c == '$' || c == '!' || c == '%' || c == '*' || c == '?' || c == '&'

/-- The object `validatePasswordStrength` returns. -/
structure PasswordCheck where
  isValid : Bool
  errors : List String
  deriving DecidableEq, Repr

/-- The function `validatePasswordStrength`: five tests in sequence, each
pushing its message onto `errors` when it fails. -/
def validatePasswordStrength (password : String) : PasswordCheck :=
  let p := password.toList
  let errors : List String := []
  let errors := if utf16Length p < PASSWORD_MIN_LENGTH then
    errors ++ ["Password must be at least 8 characters"] else errors
  let errors := if !p.any isUpper then
    errors ++ ["Password must contain uppercase letters"] else errors
  let errors := if !p.any isLower then
    errors ++ ["Password must contain lowercase letters"] else errors
  let errors := if !p.any isDigit then
    errors ++ ["Password must contain numbers"] else errors
  let errors := if !p.any isSymbol then
    errors ++ ["Password must contain special characters (@$!%*?&)"] else errors
  { isValid := errors.length == 0, errors := errors }

/-- The class `\s` of JavaScript, which is also what `trim` strips: the
white-space and line-terminator code points. -/
def jsWhitespace (c : Char) : Bool :=
  let n := c.toNat
  (decide (9 ≤ n) && decide (n ≤ 13)) || n == 32 || n == 160 || n == 5760 ||
  (decide (8192 ≤ n) && decide (n ≤ 8202)) || n == 8232 || n == 8233 || n == 8239 ||
  n == 8287 || n == 12288 || n == 65279

/-- The method `String.prototype.trim`. -/
def jsTrim (s : List Char) : List Char :=
  ((s.dropWhile jsWhitespace).reverse.dropWhile jsWhitespace).reverse

/-- The pieces the email pattern is built from: a literal character, and a
character class repeated one or more times. -/
inductive RegexItem where
  | lit (c : Char)
  | plus (cls : Char → Bool)

/-- Whether a pattern anchored at both ends (`^...$`) matches the whole string. -/
def regexMatch : List RegexItem → List Char → Bool
  | [], [] => true
  | [], _ :: _ => false
  | _ :: _, [] => false
  | .lit c :: rest, x :: xs => x == c && regexMatch rest xs
  | .plus cls :: rest, x :: xs =>
    cls x && (regexMatch rest xs || regexMatch (.plus cls :: rest) xs)

/-- The class `[^\s@]`. -/
def notSpaceNorAt (c : Char) : Bool := !jsWhitespace c && c != '@'

/-- The pattern `emailRegex` of `handleAdminLogin`: `^[^\s@]+@[^\s@]+\.[^\s@]+$`. -/
def emailRegex : List RegexItem :=
  [.plus notSpaceNorAt, .lit '@', .plus notSpaceNorAt, .lit '.', .plus notSpaceNorAt]

/-- What the awaited `signInWithPassword` call settles to: an `error`, a
`data.user`, neither, or an exception. -/
inductive AuthResult where
  | error (message : String)
  | user (id : String)
  | noUser
  | thrown
  deriving DecidableEq, Repr

/-- What a run of `handleAdminLogin` leaves: the page state and the number
of `signInWithPassword` calls it issued. -/
structure LoginOutcome where
  world : World
  authenticateCalls : Nat
  deriving DecidableEq, Repr

/-- The function `handleAdminLogin`, for a submission made at time `now`
whose authentication, if one is issued, settles at time `later` with `auth`.
The success branch is `loginSucceeded`. -/
def handleAdminLogin (w : World) (now later : Int) (emailValue passwordValue : String)
    (auth : AuthResult) : LoginOutcome :=
  let email := jsTrim emailValue.toList
  let password := passwordValue.toList
  let locked := isAdminLockedOut w.securityState now
  let w1 := { w with securityState := locked.1 }
  if locked.2 then { world := w1, authenticateCalls := 0 }
  else if email.isEmpty || password.isEmpty then { world := w1, authenticateCalls := 0 }
  else if !regexMatch emailRegex email then { world := w1, authenticateCalls := 0 }
  else
    match auth with
    | .error _ =>
      let failed := handleFailedLoginAttempt w1.securityState later
      let isLocked := isAdminLockedOut failed.1 later
      { world := { w1 with securityState := isLocked.1 }, authenticateCalls := 1 }
    | .user id => { world := loginSucceeded w1 id later, authenticateCalls := 1 }
    | .noUser => { world := w1, authenticateCalls := 1 }
    | .thrown =>
      { world := { w1 with securityState := (handleFailedLoginAttempt w1.securityState later).1 },
        authenticateCalls := 1 }

/-- One submission of the login form. -/
structure Submission where
  now : Int
  later : Int
  email : String
  password : String
  auth : AuthResult
  deriving DecidableEq, Repr

/-- The run of `handleAdminLogin` on one submission. -/
def submit (w : World) (s : Submission) : LoginOutcome :=
  handleAdminLogin w s.now s.later s.email s.password s.auth

/-- The page after a sequence of submissions. -/
def submitAll (w : World) (subs : List Submission) : World :=
  subs.foldl (fun v s => (submit v s).world) w

/-! ## Analytics events

The two handlers that change the mirror are `handleCarViewTracked` and the
INSERT callback of `subscribeToAnalytics`, defined with the page state above. -/

/-- Steps 2 to 4 of `loadAdminCars` run on the emptied mirror with nothing in
between, the part that builds the mirror: an entry for each car from its
persisted counters, then the replay of today's events. -/
def bulkLoad (cars : List Car) (events : List AnalyticsEvent) : Mirror :=
  events.foldl replayEvent (initAnalytics [] cars)

/-- The number of events of one type recorded for one property key. -/
def eventCount (events : List AnalyticsEvent) (key : String) (eventType : String) : Int :=
  ((events.filter (fun ev =>
    decide (propertyKey ev.car_id = key) && decide (ev.event_type = some eventType))).length : Nat)

/-- The `carContactClicked` listener of `admin_analytics.js`: the mirror it
leaves and the number of `increment_buy_clicks` calls it issues. -/
def carContactClickedListener (m : Mirror) (carId : Option String) : Mirror × Nat :=
  match carId with
  | none => (m, 0)
  | some id => if id ≠ "" then (m, 1) else (m, 0)

/-- The effect of `window.dispatchEvent` on the admin page for the two custom
events of `cars.js`, with the listeners of `trackRealTimeStats` and of
`admin_analytics.js` attached: the mirror, and the number of backend calls. -/
def dispatchEvent (m : Mirror) (eventName : String) (carId : Option String) : Mirror × Nat :=
  if eventName = "carViewTracked" then (handleCarViewTracked m carId, 0)
  else if eventName = "carContactClicked" then carContactClickedListener m carId
  else (m, 0)

/-- A submission that passes the local checks and that the authenticator rejects. -/
def Submission.rejected (s : Submission) : Prop :=
  (jsTrim s.email.toList).isEmpty = false ∧ s.password.toList.isEmpty = false ∧
  regexMatch emailRegex (jsTrim s.email.toList) = true ∧ ∃ message, s.auth = .error message

/-! ## Manual reset, password pattern, session events, lockout message -/

/-- The click handler of `resetStatsBtn` in `setupAdminEventListeners`:
after the `confirm` dialog it calls `resetDailyStats()` and nothing else. -/
def resetStatsBtnClick (w : World) (confirmed : Bool) : World :=
  if confirmed then { w with carAnalytics := resetDailyStats w.carAnalytics } else w

/-- The characters `.` does not match: the line terminators. -/
def isLineTerminator (c : Char) : Bool :=
  c.toNat == 10 || c.toNat == 13 || c.toNat == 8232 || c.toNat == 8233

/-- A lookahead `(?=.*[cls])` at the start of the string: `.*` runs over
characters that are not line terminators, then the class must match. -/
def lookaheadDotStar (cls : Char → Bool) : List Char → Bool
  | [] => false
  | c :: rest => cls c || (!isLineTerminator c && lookaheadDotStar cls rest)

/-- The class `[A-Za-z\d@$!%*?&]`. -/
def passwordChar (c : Char) : Bool := isUpper c || isLower c || isDigit c || isSymbol c

/-- A body `[cls]{n,}$` that starts at the start of the string: at least `n`
characters, every one of the class, up to the end. -/
def classAtLeast (n : Nat) (cls : Char → Bool) (s : List Char) : Bool :=
  decide (n ≤ s.length) && s.all cls

/-- Whether `SECURITY_CONFIG.PASSWORD_REGEX`,
`^(?=.*[a-z])(?=.*[A-Z])(?=.*\d)(?=.*[@$!%*?&])[A-Za-z\d@$!%*?&]{8,}$`,
matches: the four lookaheads, then the body. -/
def PASSWORD_REGEX_test (p : List Char) : Bool :=
  lookaheadDotStar isLower p && lookaheadDotStar isUpper p && lookaheadDotStar isDigit p &&
  lookaheadDotStar isSymbol p && classAtLeast 8 passwordChar p

/-- The events that touch `lastActivityTime` and `warningShown` once a
session is set up. -/
inductive SessionOp where
  | inactivityCheck
  | updateLastActivity
  | extendSession
  | resetSessionBtnClick
  deriving DecidableEq, Repr

/-- The effect of one session event at time `now`. -/
def sessionStep (w : World) (op : SessionOp) (now : Int) : World :=
  match op with
  | .inactivityCheck => (inactivityCheck w now).1
  | .updateLastActivity => { w with securityState := updateLastActivity w.securityState now }
  | .extendSession => { w with securityState := extendSession w.securityState now }
  | .resetSessionBtnClick =>
    { w with securityState := resetSessionBtnClick w.securityState now }

/-- The page after a history of session events, each with its time. -/
def sessionRun (w : World) : List (SessionOp × Int) → World
  | [] => w
  | (op, t) :: rest => sessionRun (sessionStep w op t) rest

/-- The time of the most recent operation of a history that started at `t0`. -/
def lastTime (t0 : Int) : List (SessionOp × Int) → Int
  | [] => t0
  | (_, t) :: rest => lastTime t rest

/-- The warning is on only when the session has been idle for 58 minutes at time `now`. -/
def WarningOk (w : World) (now : Int) : Prop :=
  w.securityState.warningShown = true →
    58 * 60 * 1000 ≤ now - toNumber w.securityState.lastActivityTime

/-- The `remainingTime` of the lockout branch of `handleAdminLogin`:
`Math.ceil((LOCKOUT_DURATION - (Date.now() - lastLoginAttempt)) / 60000)`. -/
def lockoutRemainingTime (s : SecurityState) (now : Int) : Int :=
  Int.ceil (((LOCKOUT_DURATION - (now - toNumber s.lastLoginAttempt) : Int) : ℚ) / 60000)

/-- An event that reaches the mirror: a local `carViewTracked` with its
`carId`, or a remote INSERT notification with its `payload.new`. -/
inductive MirrorEvent where
  | viewTracked (carId : Option String)
  | inserted (payload : AnalyticsEvent)
  deriving DecidableEq, Repr

/-- The handler an event runs. -/
def applyEvent (m : Mirror) : MirrorEvent → Mirror
  | .viewTracked carId => handleCarViewTracked m carId
  | .inserted payload => subscribeToAnalyticsOnInsert m payload

/-- Adding to the three counters the handlers increment. -/
def addCounts (details dailyDetails dailyBuy : Int) (e : AnalyticsEntry) : AnalyticsEntry :=
  { details_clicks := e.details_clicks + details
    buy_clicks := e.buy_clicks
    daily_details_clicks := e.daily_details_clicks + dailyDetails
    daily_buy_clicks := e.daily_buy_clicks + dailyBuy }

/-- What an event amounts to: nothing when its handler ignores it, or else
the key it touches and what it adds to `details_clicks`,
`daily_details_clicks` and `daily_buy_clicks` there (`applyEvent_get` proves
that the handlers do exactly this, except under a key that reaches an
inherited member, where they change nothing). -/
def eventDelta : MirrorEvent → Option (String × Int × Int × Int)
  | .viewTracked none => none
  | .viewTracked (some id) => if id ≠ "" then some (id, 1, 1, 0) else none
  | .inserted ⟨some id, some ty⟩ =>
    if id ≠ "" ∧ ty ≠ "" then
      some (id, 0, if ty = "view" then 1 else 0,
        if ty = "view" then 0 else if ty = "contact_click" then 1 else 0)
    else none
  | .inserted ⟨some _, none⟩ => none
  | .inserted ⟨none, _⟩ => none

/-- Two mirrors hold the same entry, or none, under every key. -/
def MirrorEq (m v : Mirror) : Prop := ∀ k, Mirror.get m k = Mirror.get v k

/-! ## The car form -/

/-- A number as `parseFloat` returns it: `NaN`, a finite value, or an infinity. -/
inductive JsNumber where
  | nan
  | finite (q : ℚ)
  | posInf
  | negInf
  deriving DecidableEq

/-- Whether a `parseFloat` result is truthy: not `NaN` and not zero. -/
def JsNumber.truthy : JsNumber → Bool
  | .nan => false
  | .finite q => decide (q ≠ 0)
  | .posInf => true
  | .negInf => true

/-- The comparison `x <= 0` on a `parseFloat` result. -/
def JsNumber.leZero : JsNumber → Bool
  | .nan => false
  | .finite q => decide (q ≤ 0)
  | .posInf => false
  | .negInf => true

/-- Whether a `parseInt` result, `none` for `NaN`, is truthy. -/
def intTruthy : Option Int → Bool
  | none => false
  | some n => decide (n ≠ 0)

/-- The comparison `a < b` on a `parseInt` result; false for `NaN`. -/
def intLt (a : Option Int) (b : Int) : Bool :=
  match a with
  | none => false
  | some n => decide (n < b)

/-- The comparison `a > b` on a `parseInt` result; false for `NaN`. -/
def intGt (a : Option Int) (b : Int) : Bool :=
  match a with
  | none => false
  | some n => decide (n > b)

/-- What `saveCar` reads: the raw make and model, the results of `parseInt`
on the year, mileage and seats fields and of `parseFloat` on the price field,
and the uploaded images. -/
structure CarForm where
  carMake : String
  carModel : String
  carYear : Option Int
  carPrice : JsNumber
  carMileage : Option Int
  carSeats : Option Int
  uploadedCarImages : List String

/-- How a run of `saveCar` ends: turned away with a toast, or on to the
`update` or the `insert` of the `cars` table. -/
inductive SaveResult where
  | rejected (toast : String)
  | update
  | insert
  deriving DecidableEq, Repr

/-- The number of backend writes a run of `saveCar` issues. -/
def SaveResult.writes : SaveResult → Nat
  | .rejected _ => 0
  | .update => 1
  | .insert => 1

/-- The validation of `saveCar` and the choice of the write, for the year
`new Date().getFullYear()` returns and for whether `currentEditingCar` is set. -/
def saveCar (form : CarForm) (fullYear : Int) (currentEditingCar : Bool) : SaveResult :=
  let make := jsTrim form.carMake.toList
  let model := jsTrim form.carModel.toList
  let year := form.carYear
  let price := form.carPrice
  let mileage := form.carMileage
  let seats := form.carSeats
  if make.isEmpty || model.isEmpty || !intTruthy year || !price.truthy || !intTruthy mileage ||
      !intTruthy seats then
    .rejected "Please fill in all required fields."
  else if intLt year 1990 || intGt year fullYear then .rejected "Please enter a valid year."
  else if price.leZero then .rejected "Please enter a valid price."
  else if intLt mileage 0 then .rejected "Please enter a valid mileage."
  else if intLt seats 2 || intGt seats 9 then
    .rejected "Please enter a valid number of seats (2-9)."
  else if form.uploadedCarImages.length == 0 then
    .rejected "Please upload at least one car image."
  else if currentEditingCar then .update
  else .insert

/-! ## Login lockout -/

theorem failedAttempts_snoc (s : SecurityState) (ts : List Int) (t : Int) :
    failedAttempts s (ts ++ [t]) = handleFailedLoginAttempt (failedAttempts s ts).1 t := by
  simp [failedAttempts, List.foldl_append]

/-- While the lock flag agrees with the counter, failures keep it so and add one each. -/
theorem failedAttempts_count (s : SecurityState)
    (hs : s.isLockedOut = true ↔ MAX_LOGIN_ATTEMPTS ≤ s.failedLoginAttempts) (ts : List Int) :
    (failedAttempts s ts).1.failedLoginAttempts = s.failedLoginAttempts + ts.length ∧
    ((failedAttempts s ts).1.isLockedOut = true ↔
      MAX_LOGIN_ATTEMPTS ≤ (failedAttempts s ts).1.failedLoginAttempts) := by
  induction ts using List.reverseRecOn with
  | nil => simpa [failedAttempts] using hs
  | append_singleton ts t ih =>
    obtain ⟨hc, hl⟩ := ih
    rw [failedAttempts_snoc]
    unfold handleFailedLoginAttempt
    simp only [ge_iff_le]
    split
    · rename_i h
      refine ⟨?_, ?_⟩
      · simp [hc]; omega
      · simpa using h
    · rename_i h
      refine ⟨?_, ?_⟩
      · simp [hc]; omega
      · simp only [MAX_LOGIN_ATTEMPTS] at h hl ⊢
        constructor
        · intro hlock
          have := hl.mp hlock
          omega
        · intro h5
          exact absurd h5 h

/-- C1: starting from the initial state, after `n ≥ 1` consecutive calls of
`handleFailedLoginAttempt` (the last one at time `t`) the counter is `n`,
`lastLoginAttempt` is `t`, and the last call returns `true` and leaves
`isLockedOut` set exactly when `n ≥ 5`; for `n < 5` both are `false`. -/
theorem failed_attempts_lock_at_five (ts : List Int) (t : Int) :
    (failedAttempts initialSecurityState (ts ++ [t])).1.failedLoginAttempts = ts.length + 1 ∧
    (failedAttempts initialSecurityState (ts ++ [t])).1.lastLoginAttempt = some t ∧
    ((failedAttempts initialSecurityState (ts ++ [t])).2 = true ↔
      MAX_LOGIN_ATTEMPTS ≤ ts.length + 1) ∧
    ((failedAttempts initialSecurityState (ts ++ [t])).1.isLockedOut = true ↔
      MAX_LOGIN_ATTEMPTS ≤ ts.length + 1) ∧
    (ts.length + 1 < MAX_LOGIN_ATTEMPTS →
      (failedAttempts initialSecurityState (ts ++ [t])).2 = false ∧
      (failedAttempts initialSecurityState (ts ++ [t])).1.isLockedOut = false) := by
  have h0 : initialSecurityState.isLockedOut = true ↔
      MAX_LOGIN_ATTEMPTS ≤ initialSecurityState.failedLoginAttempts := by
    simp [initialSecurityState, MAX_LOGIN_ATTEMPTS]
  obtain ⟨hc, hl⟩ := failedAttempts_count initialSecurityState h0 ts
  have hc0 : (failedAttempts initialSecurityState ts).1.failedLoginAttempts = ts.length := by
    simpa [initialSecurityState] using hc
  rw [failedAttempts_snoc]
  unfold handleFailedLoginAttempt
  simp only [ge_iff_le, hc0]
  rw [hc0] at hl
  simp only [MAX_LOGIN_ATTEMPTS] at hl ⊢
  by_cases h : 5 ≤ ts.length + 1
  · simp [h]
  · have hnl : (failedAttempts initialSecurityState ts).1.isLockedOut = false := by
      cases hb : (failedAttempts initialSecurityState ts).1.isLockedOut with
      | false => rfl
      | true => have := hl.mp hb; omega
    simp [h, hnl]

/-- C2: `isAdminLockedOut` at time `now`: an unlocked state is returned
unchanged with `false`; a locked state whose last attempt is more than
`LOCKOUT_DURATION` old is unlocked, its counter zeroed, with `false`; any other
locked state is returned unchanged with `true`. The counter is zeroed exactly
on the call that takes the lock from `true` to `false`, and is otherwise kept. -/
theorem isAdminLockedOut_cases (s : SecurityState) (now : Int) :
    (s.isLockedOut = false → isAdminLockedOut s now = (s, false)) ∧
    (s.isLockedOut = true → now - toNumber s.lastLoginAttempt > LOCKOUT_DURATION →
      isAdminLockedOut s now =
        ({ s with isLockedOut := false, failedLoginAttempts := 0 }, false)) ∧
    (s.isLockedOut = true → ¬ (now - toNumber s.lastLoginAttempt > LOCKOUT_DURATION) →
      isAdminLockedOut s now = (s, true)) ∧
    (s.isLockedOut = true ∧ (isAdminLockedOut s now).1.isLockedOut = false →
      (isAdminLockedOut s now).1.failedLoginAttempts = 0) ∧
    (¬ (s.isLockedOut = true ∧ (isAdminLockedOut s now).1.isLockedOut = false) →
      (isAdminLockedOut s now).1 = s) := by
  unfold isAdminLockedOut
  cases hl : s.isLockedOut <;> by_cases ht : now - toNumber s.lastLoginAttempt > LOCKOUT_DURATION <;>
    simp [hl, ht]

theorem lockedImpliesMax_step (s : SecurityState) (op : LoginOp) (now : Int)
    (h : LockedImpliesMax s) : LockedImpliesMax (loginStep s op now) := by
  unfold LockedImpliesMax at h ⊢
  cases op with
  | failed =>
    simp only [loginStep, handleFailedLoginAttempt, ge_iff_le]
    split
    · rename_i h5
      intro _
      simpa using h5
    · intro hl
      have := h (by simpa using hl)
      simp only [MAX_LOGIN_ATTEMPTS] at this ⊢
      omega
  | lockedOutQuery =>
    simp only [loginStep, isAdminLockedOut]
    split
    · exact h
    · split
      · simp
      · exact h
  | reset => simp [loginStep, resetLoginAttempts]

theorem lockedImpliesMax_run (ops : List (LoginOp × Int)) (s : SecurityState)
    (h : LockedImpliesMax s) : LockedImpliesMax (loginRun s ops) := by
  induction ops generalizing s with
  | nil => simpa [loginRun] using h
  | cons p rest ih =>
    obtain ⟨op, t⟩ := p
    simp only [loginRun]
    exact ih _ (lockedImpliesMax_step s op t h)

/-- C3, as stated, fails at the boundary: five failures at time 0 and a query
exactly `LOCKOUT_DURATION` later, under a clock that never runs backwards,
still report the account locked although `now - lastLoginAttempt` is not
below `LOCKOUT_DURATION`. -/
theorem locked_at_exact_duration :
    nonDecreasing ([(LoginOp.failed, (0 : Int)), (.failed, 0), (.failed, 0), (.failed, 0),
      (.failed, 0)].map Prod.snd ++ [900000]) = true ∧
    (isAdminLockedOut (loginRun initialSecurityState
      [(.failed, 0), (.failed, 0), (.failed, 0), (.failed, 0), (.failed, 0)]) 900000).2 = true ∧
    ¬ ((900000 : Int) - toNumber (loginRun initialSecurityState
      [(.failed, 0), (.failed, 0), (.failed, 0), (.failed, 0), (.failed, 0)]).lastLoginAttempt
        < LOCKOUT_DURATION) := by
  decide

/-- C3, amended: in every state reached from the initial one by
`handleFailedLoginAttempt`, `isAdminLockedOut` and `resetLoginAttempts` calls
under a clock that never runs backwards, whenever `isAdminLockedOut` reports
the account locked at time `now`, `now - lastLoginAttempt` is at most
`LOCKOUT_DURATION` and the counter is at least `MAX_LOGIN_ATTEMPTS`. -/
theorem locked_report_bounds (ops : List (LoginOp × Int)) (now : Int)
    (_hclock : nonDecreasing (ops.map Prod.snd ++ [now]) = true)
    (hlocked : (isAdminLockedOut (loginRun initialSecurityState ops) now).2 = true) :
    now - toNumber (loginRun initialSecurityState ops).lastLoginAttempt ≤ LOCKOUT_DURATION ∧
    MAX_LOGIN_ATTEMPTS ≤ (loginRun initialSecurityState ops).failedLoginAttempts := by
  have hinv : LockedImpliesMax (loginRun initialSecurityState ops) :=
    lockedImpliesMax_run ops initialSecurityState (by simp [LockedImpliesMax, initialSecurityState])
  unfold isAdminLockedOut at hlocked
  cases hl : (loginRun initialSecurityState ops).isLockedOut with
  | false => simp [hl] at hlocked
  | true =>
    refine ⟨?_, hinv hl⟩
    by_contra hgt
    simp only [not_le] at hgt
    simp [hl, hgt] at hlocked

/-- The bounds of `locked_report_bounds` at a concrete history: five failures
between 0 and 40 ms, a query at 50 ms, and a query at 900000 ms. -/
theorem locked_report_bounds_witness :
    (900000 : Int) - toNumber (loginRun initialSecurityState
      [(.failed, 0), (.failed, 10), (.failed, 20), (.failed, 30), (.failed, 40),
       (.lockedOutQuery, 50)]).lastLoginAttempt ≤ LOCKOUT_DURATION ∧
    MAX_LOGIN_ATTEMPTS ≤ (loginRun initialSecurityState
      [(.failed, 0), (.failed, 10), (.failed, 20), (.failed, 30), (.failed, 40),
       (.lockedOutQuery, 50)]).failedLoginAttempts :=
  locked_report_bounds
    [(.failed, 0), (.failed, 10), (.failed, 20), (.failed, 30), (.failed, 40),
     (.lockedOutQuery, 50)] 900000 (by decide) (by decide)

/-- C4: whatever the prior state, `resetLoginAttempts` leaves the counter at
0, the lock cleared and `lastLoginAttempt` null. -/
theorem resetLoginAttempts_clears (s : SecurityState) :
    (resetLoginAttempts s).failedLoginAttempts = 0 ∧
    (resetLoginAttempts s).isLockedOut = false ∧
    (resetLoginAttempts s).lastLoginAttempt = none := by
  simp [resetLoginAttempts]

/-! ## Session activity -/

/-- C7: `updateLastActivity` at time `now` sets `lastActivityTime` to `now`
when no warning is shown and changes nothing when one is; in both cases every
field other than `lastActivityTime` is kept. -/
theorem updateLastActivity_frame (s : SecurityState) (now : Int) :
    (s.warningShown = false → (updateLastActivity s now).lastActivityTime = some now) ∧
    (s.warningShown = true → updateLastActivity s now = s) ∧
    updateLastActivity s now =
      { s with lastActivityTime := (updateLastActivity s now).lastActivityTime } := by
  obtain ⟨f, l, k, st, a, tm, ws⟩ := s
  cases ws <;> simp [updateLastActivity]

/-! ## Timer bookkeeping -/

/-- A state that agrees with a consistent one on the timer table, the stored
identifier and the identifier counter is consistent. -/
theorem timersOk_of_eq {w v : World} (h : TimersOk w)
    (hn : v.nextTimerId = w.nextTimerId)
    (hi : v.securityState.inactivityTimer = w.securityState.inactivityTimer)
    (ht : v.activeTimers = w.activeTimers) : TimersOk v := by
  unfold TimersOk timersOf at h ⊢
  rw [hn, hi, ht]
  exact h

theorem clearSessionManagement_timers (w : World) (h : TimersOk w) :
    timersOf (clearSessionManagement w) .inactivity = [] := by
  obtain ⟨_, hpos, hact⟩ := h
  unfold clearSessionManagement
  cases hid : w.securityState.inactivityTimer with
  | none =>
    rcases hact with h0 | ⟨id, hs, _⟩
    · simpa using h0
    · simp [hid] at hs
  | some id =>
    have hne : id ≠ 0 := Nat.pos_iff_ne_zero.mp (hpos id hid)
    simp only [hne, ne_eq, not_false_eq_true, if_true]
    rcases hact with h0 | ⟨id2, hs, h1⟩
    · unfold timersOf clearInterval at *
      simp only [List.filter_filter]
      rw [List.filter_eq_nil_iff] at h0 ⊢
      intro p hp hc
      exact h0 p hp (by simp only [Bool.and_eq_true] at hc; exact hc.1)
    · rw [hid] at hs
      cases hs
      unfold timersOf clearInterval at *
      simp only [List.filter_filter]
      rw [List.filter_eq_nil_iff]
      intro p hp hc
      simp only [Bool.and_eq_true, bne_iff_ne, ne_eq] at hc
      have hmem : p ∈ List.filter (fun p => p.2 == TimerKind.inactivity) w.activeTimers :=
        List.mem_filter.mpr ⟨hp, hc.1⟩
      rw [h1] at hmem
      simp only [List.mem_singleton] at hmem
      exact hc.2 (by rw [hmem])

theorem clearSessionManagement_other (w : World) :
    (clearSessionManagement w).nextTimerId = w.nextTimerId ∧
    (clearSessionManagement w).securityState = w.securityState ∧
    (clearSessionManagement w).sessionFlag = w.sessionFlag ∧
    (clearSessionManagement w).currentAdminUser = w.currentAdminUser ∧
    (clearSessionManagement w).adminCars = w.adminCars ∧
    (clearSessionManagement w).carAnalytics = w.carAnalytics := by
  unfold clearSessionManagement
  cases w.securityState.inactivityTimer with
  | none => simp
  | some id => by_cases h : id = 0 <;> simp [h, clearInterval]

/-- What `setupSessionManagement` leaves in a consistent state: one
inactivity timer, the one it stored, and the session clock restarted. -/
theorem setupSessionManagement_spec (w : World) (now : Int) (h : TimersOk w) :
    timersOf (setupSessionManagement w now) .inactivity = [(w.nextTimerId, .inactivity)] ∧
    (setupSessionManagement w now).securityState.inactivityTimer = some w.nextTimerId ∧
    (setupSessionManagement w now).nextTimerId = w.nextTimerId + 1 ∧
    (setupSessionManagement w now).securityState.sessionStartTime = some now ∧
    (setupSessionManagement w now).securityState.lastActivityTime = some now ∧
    (setupSessionManagement w now).securityState.warningShown = false := by
  have h0 := clearSessionManagement_timers w h
  have h1 := (clearSessionManagement_other w).1
  unfold timersOf at h0
  simp [setupSessionManagement, setInterval, timersOf, List.filter_append, h0, h1]

theorem timersOk_setup (w : World) (now : Int) (h : TimersOk w) :
    TimersOk (setupSessionManagement w now) := by
  obtain ⟨ht, hi, hn, _⟩ := setupSessionManagement_spec w now h
  refine ⟨by omega, ?_, Or.inr ⟨w.nextTimerId, hi, ht⟩⟩
  intro id hid
  rw [hi] at hid
  cases hid
  exact h.1

theorem timersOk_logoutSync (w : World) (h : TimersOk w) : TimersOk (handleLogoutSync w) := by
  have h0 := clearSessionManagement_timers w h
  obtain ⟨h1, h2, _⟩ := clearSessionManagement_other w
  refine ⟨?_, ?_, Or.inl ?_⟩
  · simpa [handleLogoutSync, h1] using h.1
  · simpa [handleLogoutSync, h2] using h.2.1
  · simpa [handleLogoutSync, timersOf] using h0

theorem timersOk_dailyCheck (w : World) (now : Int) (h : TimersOk w) :
    TimersOk (checkAndResetDailyStats w now) := by
  unfold checkAndResetDailyStats
  cases w.lastStatsReset with
  | none => exact timersOk_of_eq h rfl rfl rfl
  | some lastReset =>
    simp only
    split
    · exact timersOk_of_eq h rfl rfl rfl
    · exact h

theorem timersOk_initDaily (w : World) (now : Int) (h : TimersOk w) :
    TimersOk (initDailyStatsReset w now) := by
  have h1 := timersOk_dailyCheck w now h
  obtain ⟨hn, hi, ht⟩ := h1
  refine ⟨?_, ?_, ?_⟩
  · simp [initDailyStatsReset, setInterval]
  · simpa [initDailyStatsReset, setInterval] using hi
  · simpa [initDailyStatsReset, setInterval, timersOf, List.filter_append] using ht

theorem timersOk_loadAdminCarsOnCars (w : World) (carsQuery : QueryResult (List Car))
    (h : TimersOk w) : TimersOk (loadAdminCarsOnCars w carsQuery).1 := by
  unfold loadAdminCarsOnCars
  cases carsQuery with
  | error => exact h
  | data carsData =>
    dsimp only
    split <;> exact timersOk_of_eq h rfl rfl rfl

theorem timersOk_loadAdminCarsOnAnalytics (w : World) (now : Int)
    (analyticsQuery : QueryResult (List AnalyticsEvent)) (h : TimersOk w) :
    TimersOk (loadAdminCarsOnAnalytics w now analyticsQuery) := by
  unfold loadAdminCarsOnAnalytics
  cases analyticsQuery with
  | error => exact h
  | data rows =>
    cases rows with
    | none => exact h
    | some analyticsData =>
      dsimp only
      split
      · exact timersOk_initDaily _ now (timersOk_of_eq h rfl rfl rfl)
      · exact timersOk_of_eq h rfl rfl rfl

theorem timersOk_loadAdminCars (w : World) (now : Int) (carsQuery : QueryResult (List Car))
    (analyticsQuery : QueryResult (List AnalyticsEvent)) (h : TimersOk w) :
    TimersOk (loadAdminCars w now carsQuery analyticsQuery) := by
  have h1 : TimersOk (loadAdminCarsBegin w) := timersOk_of_eq h rfl rfl rfl
  have h2 := timersOk_loadAdminCarsOnCars (loadAdminCarsBegin w) carsQuery h1
  unfold loadAdminCars
  dsimp only
  split
  · exact timersOk_loadAdminCarsOnAnalytics _ now analyticsQuery h2
  · exact h2

theorem timersOk_inactivityCheck (w : World) (now : Int) (h : TimersOk w) :
    TimersOk (inactivityCheck w now).1 := by
  unfold inactivityCheck
  simp only
  split
  · exact timersOk_logoutSync w h
  · split
    · split
      · exact timersOk_of_eq h rfl rfl rfl
      · exact h
    · exact h

theorem timersOk_step (w : World) (op : Op) (h : TimersOk w) : TimersOk (step w op) := by
  cases op with
  | loginSucceeded user now =>
    exact timersOk_setup _ now (timersOk_of_eq h rfl rfl rfl)
  | setupSessionManagement now => exact timersOk_setup w now h
  | inactivityCheck now => exact timersOk_inactivityCheck w now h
  | updateLastActivity now =>
    refine timersOk_of_eq h rfl ?_ rfl
    simp only [step, updateLastActivity]
    split <;> rfl
  | extendSession now => exact timersOk_of_eq h rfl rfl rfl
  | resetSessionBtnClick now => exact timersOk_of_eq h rfl rfl rfl
  | loadAdminCars now carsQuery analyticsQuery =>
    exact timersOk_loadAdminCars w now carsQuery analyticsQuery h
  | dailyCheck now => exact timersOk_dailyCheck w now h
  | handleLogoutSync => exact timersOk_logoutSync w h
  | handleLogoutResume signOutOk =>
    simp only [step, handleLogoutResume]
    split
    · exact timersOk_of_eq h rfl rfl rfl
    · exact h
  | loadAdminCarsBegin => exact timersOk_of_eq h rfl rfl rfl
  | loadAdminCarsOnCars carsQuery => exact timersOk_loadAdminCarsOnCars w carsQuery h
  | loadAdminCarsOnAnalytics now analyticsQuery =>
    exact timersOk_loadAdminCarsOnAnalytics w now analyticsQuery h
  | carViewTracked carId => exact timersOk_of_eq h rfl rfl rfl
  | analyticsInsert payload => exact timersOk_of_eq h rfl rfl rfl

theorem timersOk_initial : TimersOk initialWorld := by
  refine ⟨by decide, ?_, Or.inl rfl⟩
  intro id hid
  simp [initialWorld, initialSecurityState] at hid

/-- Every state the page reaches from a consistent one is consistent. -/
theorem timersOk_run (ops : List Op) (w : World) (h : TimersOk w) : TimersOk (run w ops) := by
  induction ops generalizing w with
  | nil => exact h
  | cons op rest ih => exact ih (step w op) (timersOk_step w op h)

theorem setups_snoc (w : World) (ts : List Int) (t : Int) :
    setups w (ts ++ [t]) = setupSessionManagement (setups w ts) t := by
  simp [setups, List.foldl_append]

theorem timersOk_setups (ts : List Int) (w : World) (h : TimersOk w) :
    TimersOk (setups w ts) := by
  induction ts generalizing w with
  | nil => exact h
  | cons t rest ih => exact ih (setupSessionManagement w t) (timersOk_setup w t h)

/-! ## Session lifecycle -/

/-- C5: for a session started at `t0` by `setupSessionManagement`, with no
activity and no extension, the inactivity check run at time `t` shows the
warning exactly when `58 min ≤ t - t0 < 60 min`, calls `handleLogout` exactly
when `t - t0 ≥ 60 min`, and changes nothing when `t - t0 < 58 min`. -/
theorem inactivityCheck_after_setup (w0 : World) (t0 t : Int) :
    ((inactivityCheck (setupSessionManagement w0 t0) t).1.securityState.warningShown = true ↔
      58 * 60 * 1000 ≤ t - t0 ∧ t - t0 < 60 * 60 * 1000) ∧
    ((inactivityCheck (setupSessionManagement w0 t0) t).2 = true ↔ 60 * 60 * 1000 ≤ t - t0) ∧
    (60 * 60 * 1000 ≤ t - t0 →
      (inactivityCheck (setupSessionManagement w0 t0) t).1 =
        handleLogoutSync (setupSessionManagement w0 t0)) ∧
    (t - t0 < 58 * 60 * 1000 →
      inactivityCheck (setupSessionManagement w0 t0) t = (setupSessionManagement w0 t0, false)) := by
  have hact : (setupSessionManagement w0 t0).securityState.lastActivityTime = some t0 := by
    simp [setupSessionManagement, setInterval]
  have hwarn : (setupSessionManagement w0 t0).securityState.warningShown = false := by
    simp [setupSessionManagement, setInterval]
  have hsync : (handleLogoutSync (setupSessionManagement w0 t0)).securityState.warningShown
      = false := by
    simp [handleLogoutSync, (clearSessionManagement_other _).2.1, hwarn]
  unfold inactivityCheck
  simp only [hact, hwarn, toNumber, Option.getD_some, SESSION_TIMEOUT, warningThreshold]
  by_cases h60 : 60 * 60 * 1000 - (t - t0) ≤ 0
  · simp only [h60, if_true, hsync]
    refine ⟨?_, ?_, ?_, ?_⟩
    · constructor
      · intro h; cases h
      · intro h; omega
    · constructor
      · intro _; omega
      · intro _; trivial
    · intro _; trivial
    · intro h; omega
  · by_cases h58 : 60 * 60 * 1000 - (t - t0) ≤ 2 * 60 * 1000
    · simp only [h60, h58, if_true, if_false, Bool.not_false]
      refine ⟨?_, ?_, ?_, ?_⟩
      · constructor
        · intro _; omega
        · intro _; trivial
      · constructor
        · intro h; cases h
        · intro h; omega
      · intro h; omega
      · intro h; omega
    · simp only [h60, h58, if_false, hwarn]
      refine ⟨?_, ?_, ?_, ?_⟩
      · constructor
        · intro h; cases h
        · intro h; omega
      · constructor
        · intro h; cases h
        · intro h; omega
      · intro h; omega
      · intro _; trivial

/-- C6, as stated, fails: after `extendSession` at time 0, the check run 60
minutes later has `t - te ≥ 58 min`, yet it does not show the warning; it
calls `handleLogout` instead. -/
theorem extend_then_late_check_skips_warning :
    (58 * 60 * 1000 : Int) ≤ 3600000 - 0 ∧
    (inactivityCheck (step (setupSessionManagement initialWorld 0) (.extendSession 0))
      3600000).1.securityState.warningShown = false ∧
    (inactivityCheck (step (setupSessionManagement initialWorld 0) (.extendSession 0))
      3600000).2 = true := by
  decide

/-- C6, amended: `extendSession` at time `te` sets `lastActivityTime` to `te`
and clears `warningShown`, so that a later inactivity check at time `t`, with
no activity in between, shows the warning if and only if
`58 min ≤ t - te < 60 min`, and calls `handleLogout` only when
`t - te ≥ 60 min` (and always then). -/
theorem extendSession_restarts_clock (w : World) (te t : Int) :
    (step w (.extendSession te)).securityState.lastActivityTime = some te ∧
    (step w (.extendSession te)).securityState.warningShown = false ∧
    ((inactivityCheck (step w (.extendSession te)) t).1.securityState.warningShown = true ↔
      58 * 60 * 1000 ≤ t - te ∧ t - te < 60 * 60 * 1000) ∧
    ((inactivityCheck (step w (.extendSession te)) t).2 = true ↔ 60 * 60 * 1000 ≤ t - te) := by
  have hact : (step w (.extendSession te)).securityState.lastActivityTime = some te := by
    simp [step, extendSession]
  have hwarn : (step w (.extendSession te)).securityState.warningShown = false := by
    simp [step, extendSession]
  have hsync : (handleLogoutSync (step w (.extendSession te))).securityState.warningShown
      = false := by
    simp [handleLogoutSync, (clearSessionManagement_other _).2.1, hwarn]
  refine ⟨hact, hwarn, ?_⟩
  unfold inactivityCheck
  simp only [hact, hwarn, toNumber, Option.getD_some, SESSION_TIMEOUT, warningThreshold]
  by_cases h60 : 60 * 60 * 1000 - (t - te) ≤ 0
  · simp only [h60, if_true, hsync]
    refine ⟨?_, ?_⟩
    · constructor
      · intro h; cases h
      · intro h; omega
    · constructor
      · intro _; omega
      · intro _; trivial
  · by_cases h58 : 60 * 60 * 1000 - (t - te) ≤ 2 * 60 * 1000
    · simp only [h60, h58, if_true, if_false, Bool.not_false]
      refine ⟨?_, ?_⟩
      · constructor
        · intro _; omega
        · intro _; trivial
      · constructor
        · intro h; cases h
        · intro h; omega
    · simp only [h60, h58, if_false, hwarn]
      refine ⟨?_, ?_⟩
      · constructor
        · intro h; cases h
        · intro h; omega
      · constructor
        · intro h; cases h
        · intro h; omega

/-! ## Timers across logins and logouts -/

/-- C8: in any state the page reaches, after `k ≥ 1` consecutive calls of
`setupSessionManagement` (the last one at time `t`) exactly one inactivity
timer is active, namely the one the last call created and stored, and
`sessionStartTime = lastActivityTime = t` with `warningShown` cleared. -/
theorem setupSessionManagement_single_timer (ops : List Op) (ts : List Int) (t : Int) :
    (timersOf (setups (run initialWorld ops) (ts ++ [t])) .inactivity).length = 1 ∧
    (∃ id, (setups (run initialWorld ops) (ts ++ [t])).securityState.inactivityTimer = some id ∧
      (setups (run initialWorld ops) (ts ++ [t])).nextTimerId = id + 1 ∧
      timersOf (setups (run initialWorld ops) (ts ++ [t])) .inactivity = [(id, .inactivity)]) ∧
    (setups (run initialWorld ops) (ts ++ [t])).securityState.sessionStartTime = some t ∧
    (setups (run initialWorld ops) (ts ++ [t])).securityState.lastActivityTime = some t ∧
    (setups (run initialWorld ops) (ts ++ [t])).securityState.warningShown = false := by
  have hok : TimersOk (setups (run initialWorld ops) ts) :=
    timersOk_setups ts _ (timersOk_run ops _ timersOk_initial)
  obtain ⟨ht, hi, hn, hs, ha, hw⟩ := setupSessionManagement_spec _ t hok
  rw [setups_snoc]
  exact ⟨by rw [ht]; rfl, ⟨_, hi, hn, ht⟩, hs, ha, hw⟩

/-- C9 on the code: a login followed by two dashboard loads leaves two hourly
daily-reset timers active, and both are still active, with no inactivity
timer, once `handleLogout` has issued its sign-out call. -/
theorem daily_reset_timers_leak :
    (timersOf (run initialWorld
      [.loginSucceeded "admin" 0,
       .loadAdminCars 1000 (.data (some [])) (.data (some [])),
       .loadAdminCars 2000 (.data (some [])) (.data (some []))]) .dailyReset).length = 2 ∧
    (timersOf (run initialWorld
      [.loginSucceeded "admin" 0,
       .loadAdminCars 1000 (.data (some [])) (.data (some [])),
       .loadAdminCars 2000 (.data (some [])) (.data (some [])),
       .handleLogoutSync]) .dailyReset).length = 2 ∧
    (timersOf (run initialWorld
      [.loginSucceeded "admin" 0,
       .loadAdminCars 1000 (.data (some [])) (.data (some [])),
       .loadAdminCars 2000 (.data (some [])) (.data (some [])),
       .handleLogoutSync]) .inactivity).length = 0 := by
  decide

/-- C10, as stated, fails: with a user signed in and one car loaded, a
`handleLogout` whose sign-out call fails keeps `currentAdminUser`, `adminCars`
and `carAnalytics`, whereas a successful one empties them. -/
theorem failed_signOut_keeps_user :
    (handleLogout (run initialWorld
      [.loginSucceeded "admin" 0,
       .loadAdminCars 1000 (.data (some [⟨"42", some 10, some 3, true⟩])) (.data (some []))])
      false).currentAdminUser = some "admin" ∧
    (handleLogout (run initialWorld
      [.loginSucceeded "admin" 0,
       .loadAdminCars 1000 (.data (some [⟨"42", some 10, some 3, true⟩])) (.data (some []))])
      false).adminCars = [⟨"42", some 10, some 3, true⟩] ∧
    (handleLogout (run initialWorld
      [.loginSucceeded "admin" 0,
       .loadAdminCars 1000 (.data (some [⟨"42", some 10, some 3, true⟩])) (.data (some []))])
      false).carAnalytics = [("42", ⟨10, 3, 0, 0⟩)] ∧
    (handleLogout (run initialWorld
      [.loginSucceeded "admin" 0,
       .loadAdminCars 1000 (.data (some [⟨"42", some 10, some 3, true⟩])) (.data (some []))])
      true).currentAdminUser = none := by
  decide

/-- C10, amended: when the sign-out call of `handleLogout` fails, the
inactivity timer is still cancelled and the `admin_session_active` flag still
removed, as on a successful sign-out, but `currentAdminUser`, `adminCars` and
`carAnalytics` are left as they were; they are emptied only when the sign-out
succeeds. -/
theorem handleLogout_failure_clears_timer_and_flag (w : World) (h : TimersOk w) :
    timersOf (handleLogout w false) .inactivity = [] ∧
    (handleLogout w false).sessionFlag = false ∧
    (handleLogout w false).currentAdminUser = w.currentAdminUser ∧
    (handleLogout w false).adminCars = w.adminCars ∧
    (handleLogout w false).carAnalytics = w.carAnalytics ∧
    timersOf (handleLogout w true) .inactivity = [] ∧
    (handleLogout w true).sessionFlag = false ∧
    (handleLogout w true).currentAdminUser = none ∧
    (handleLogout w true).adminCars = [] ∧
    (handleLogout w true).carAnalytics = [] := by
  have h0 := clearSessionManagement_timers w h
  obtain ⟨_, _, _, hu, hc, ha⟩ := clearSessionManagement_other w
  unfold timersOf at h0
  simp [handleLogout, handleLogoutResume, handleLogoutSync, timersOf, h0, hu, hc, ha]

/-- The two outcomes of `handleLogout` in the state right after a successful login. -/
theorem handleLogout_failure_clears_timer_and_flag_witness :
    timersOf (handleLogout (run initialWorld [.loginSucceeded "admin" 0]) false) .inactivity = [] ∧
    (handleLogout (run initialWorld [.loginSucceeded "admin" 0]) false).sessionFlag = false ∧
    (handleLogout (run initialWorld [.loginSucceeded "admin" 0]) false).currentAdminUser =
      (run initialWorld [.loginSucceeded "admin" 0]).currentAdminUser ∧
    (handleLogout (run initialWorld [.loginSucceeded "admin" 0]) false).adminCars =
      (run initialWorld [.loginSucceeded "admin" 0]).adminCars ∧
    (handleLogout (run initialWorld [.loginSucceeded "admin" 0]) false).carAnalytics =
      (run initialWorld [.loginSucceeded "admin" 0]).carAnalytics ∧
    timersOf (handleLogout (run initialWorld [.loginSucceeded "admin" 0]) true) .inactivity = [] ∧
    (handleLogout (run initialWorld [.loginSucceeded "admin" 0]) true).sessionFlag = false ∧
    (handleLogout (run initialWorld [.loginSucceeded "admin" 0]) true).currentAdminUser = none ∧
    (handleLogout (run initialWorld [.loginSucceeded "admin" 0]) true).adminCars = [] ∧
    (handleLogout (run initialWorld [.loginSucceeded "admin" 0]) true).carAnalytics = [] :=
  handleLogout_failure_clears_timer_and_flag (run initialWorld [.loginSucceeded "admin" 0])
    (timersOk_run _ _ timersOk_initial)

/-! ## Credential checks -/

/-- C11: for every password, `validatePasswordStrength(p).errors` holds one
message for each violated rule among (at least 8 code units, an uppercase
letter, a lowercase letter, a digit, a symbol of `@$!%*?&`), in that order and
nothing else, and `isValid` is true exactly when the list is empty; `"abc"`
yields the four violations length, uppercase, digit, symbol, and
`"Abc12345!"` yields none. -/
theorem validatePasswordStrength_lists_violations (p : String) :
    (validatePasswordStrength p).errors =
      (if 8 ≤ utf16Length p.toList then [] else ["Password must be at least 8 characters"]) ++
      (if ∃ c ∈ p.toList, 'A' ≤ c ∧ c ≤ 'Z' then []
        else ["Password must contain uppercase letters"]) ++
      (if ∃ c ∈ p.toList, 'a' ≤ c ∧ c ≤ 'z' then []
        else ["Password must contain lowercase letters"]) ++
      (if ∃ c ∈ p.toList, '0' ≤ c ∧ c ≤ '9' then []
        else ["Password must contain numbers"]) ++
      (if ∃ c ∈ p.toList, c ∈ ['@', '$', '!', '%', '*', '?', '&'] then []
        else ["Password must contain special characters (@$!%*?&)"]) ∧
    ((validatePasswordStrength p).isValid = true ↔ (validatePasswordStrength p).errors = []) ∧
    validatePasswordStrength "abc" =
      { isValid := false,
        errors := ["Password must be at least 8 characters",
                   "Password must contain uppercase letters",
                   "Password must contain numbers",
                   "Password must contain special characters (@$!%*?&)"] } ∧
    validatePasswordStrength "Abc12345!" = { isValid := true, errors := [] } := by
  refine ⟨?_, ?_, by decide, by decide⟩
  · have hU : (p.toList.any isUpper = true) ↔ ∃ c ∈ p.toList, 'A' ≤ c ∧ c ≤ 'Z' := by
      simp [List.any_eq_true, isUpper]
    have hL : (p.toList.any isLower = true) ↔ ∃ c ∈ p.toList, 'a' ≤ c ∧ c ≤ 'z' := by
      simp [List.any_eq_true, isLower]
    have hD : (p.toList.any isDigit = true) ↔ ∃ c ∈ p.toList, '0' ≤ c ∧ c ≤ '9' := by
      simp [List.any_eq_true, isDigit]
    have hS : (p.toList.any isSymbol = true) ↔
        ∃ c ∈ p.toList, c ∈ ['@', '$', '!', '%', '*', '?', '&'] := by
      simp [List.any_eq_true, isSymbol, or_assoc]
    unfold validatePasswordStrength
    simp only [PASSWORD_MIN_LENGTH, ← hU, ← hL, ← hD, ← hS]
    generalize p.toList.any isUpper = b2
    generalize p.toList.any isLower = b3
    generalize p.toList.any isDigit = b4
    generalize p.toList.any isSymbol = b5
    generalize utf16Length p.toList = n
    by_cases h1 : 8 ≤ n
    · have h1n : ¬ n < 8 := Nat.not_lt.mpr h1
      cases b2 <;> cases b3 <;> cases b4 <;> cases b5 <;> simp [h1, h1n]
    · have h1n : n < 8 := Nat.not_le.mp h1
      cases b2 <;> cases b3 <;> cases b4 <;> cases b5 <;> simp [h1, h1n]
  · unfold validatePasswordStrength
    simp

theorem regexMatch_nil (s : List Char) : regexMatch [] s = true ↔ s = [] := by
  cases s <;> simp [regexMatch]

theorem regexMatch_lit (c : Char) (rest : List RegexItem) (s : List Char) :
    regexMatch (.lit c :: rest) s = true ↔ ∃ b, s = c :: b ∧ regexMatch rest b = true := by
  cases s with
  | nil => simp [regexMatch]
  | cons x xs =>
    simp only [regexMatch, Bool.and_eq_true, beq_iff_eq, List.cons.injEq]
    constructor
    · rintro ⟨rfl, h⟩
      exact ⟨xs, ⟨rfl, rfl⟩, h⟩
    · rintro ⟨b, ⟨rfl, rfl⟩, h⟩
      exact ⟨rfl, h⟩

/-- A repeated class matches a non-empty run of its characters, followed by
a match of the rest of the pattern. -/
theorem regexMatch_plus (cls : Char → Bool) (rest : List RegexItem) (s : List Char) :
    regexMatch (.plus cls :: rest) s = true ↔
      ∃ a b, s = a ++ b ∧ a ≠ [] ∧ (∀ x ∈ a, cls x = true) ∧ regexMatch rest b = true := by
  induction s with
  | nil =>
    simp only [regexMatch]
    constructor
    · intro h; cases h
    · rintro ⟨a, b, hs, ha, _⟩
      cases a with
      | nil => exact absurd rfl ha
      | cons y a1 => cases hs
  | cons x xs ih =>
    simp only [regexMatch, Bool.and_eq_true, Bool.or_eq_true]
    constructor
    · rintro ⟨hx, h | h⟩
      · exact ⟨[x], xs, rfl, by simp, by simpa using hx, h⟩
      · obtain ⟨a, b, hs, _, hall, hb⟩ := ih.mp h
        refine ⟨x :: a, b, by simp [hs], by simp, ?_, hb⟩
        intro y hy
        rcases List.mem_cons.mp hy with rfl | hy
        · exact hx
        · exact hall y hy
    · rintro ⟨a, b, hs, ha, hall, hb⟩
      cases a with
      | nil => exact absurd rfl ha
      | cons y a1 =>
        simp only [List.cons_append, List.cons.injEq] at hs
        obtain ⟨rfl, rfl⟩ := hs
        refine ⟨hall x (List.mem_cons_self _ _), ?_⟩
        cases a1 with
        | nil => exact Or.inl (by simpa using hb)
        | cons z a2 =>
          refine Or.inr (ih.mpr ⟨z :: a2, b, rfl, by simp, ?_, hb⟩)
          intro y hy
          exact hall y (List.mem_cons_of_mem _ hy)

theorem notSpaceNorAt_iff (c : Char) :
    notSpaceNorAt c = true ↔ jsWhitespace c = false ∧ c ≠ '@' := by
  simp [notSpaceNorAt]

/-- A list splits around any of its positions. -/
theorem split_at_index (d : List Char) (i : Nat) (c : Char) (h : d[i]? = some c) :
    d = d.take i ++ c :: d.drop (i + 1) := by
  induction d generalizing i with
  | nil => simp at h
  | cons x xs ih =>
    cases i with
    | zero =>
      simp only [List.getElem?_cons_zero, Option.some.injEq] at h
      simp [h]
    | succ j =>
      simp only [List.getElem?_cons_succ] at h
      simpa using ih j h

/-- C12: the login email check accepts `s` exactly when `s` is
`local@domain` with `local` and `domain` non-empty and free of white space
and of `@`, and with a `.` in `domain` that is neither its first nor its last
character; an accepted `s` therefore has exactly one `@`. -/
theorem emailRegex_accepts_iff (s : List Char) :
    (regexMatch emailRegex s = true ↔
      ∃ l d, s = l ++ '@' :: d ∧ l ≠ [] ∧ d ≠ [] ∧
        (∀ c ∈ l, jsWhitespace c = false ∧ c ≠ '@') ∧
        (∀ c ∈ d, jsWhitespace c = false ∧ c ≠ '@') ∧
        ∃ i, 0 < i ∧ i + 1 < d.length ∧ d[i]? = some '.') ∧
    (regexMatch emailRegex s = true → s.count '@' = 1) := by
  have hiff : regexMatch emailRegex s = true ↔
      ∃ l d, s = l ++ '@' :: d ∧ l ≠ [] ∧ d ≠ [] ∧
        (∀ c ∈ l, jsWhitespace c = false ∧ c ≠ '@') ∧
        (∀ c ∈ d, jsWhitespace c = false ∧ c ≠ '@') ∧
        ∃ i, 0 < i ∧ i + 1 < d.length ∧ d[i]? = some '.' := by
    unfold emailRegex
    constructor
    · intro h
      obtain ⟨a, b1, hs, ha, hal, h1⟩ := (regexMatch_plus _ _ _).mp h
      obtain ⟨b2, hb1, h2⟩ := (regexMatch_lit _ _ _).mp h1
      obtain ⟨a2, b3, hb2, ha2, hal2, h3⟩ := (regexMatch_plus _ _ _).mp h2
      obtain ⟨b4, hb3, h4⟩ := (regexMatch_lit _ _ _).mp h3
      obtain ⟨a3, b5, hb4, ha3, hal3, h5⟩ := (regexMatch_plus _ _ _).mp h4
      have hb5 : b5 = [] := (regexMatch_nil _).mp h5
      subst hb5
      simp only [List.append_nil] at hb4
      subst hb4 hb3 hb2 hb1
      refine ⟨a, a2 ++ '.' :: b4, hs, ha, by simp, ?_, ?_, a2.length, ?_, ?_, ?_⟩
      · intro c hc
        exact (notSpaceNorAt_iff c).mp (hal c hc)
      · intro c hc
        rcases List.mem_append.mp hc with hc | hc
        · exact (notSpaceNorAt_iff c).mp (hal2 c hc)
        · rcases List.mem_cons.mp hc with rfl | hc
          · exact ⟨by decide, by decide⟩
          · exact (notSpaceNorAt_iff c).mp (hal3 c hc)
      · exact List.length_pos.mpr ha2
      · have := List.length_pos.mpr ha3
        simp only [List.length_append, List.length_cons]
        omega
      · rw [List.getElem?_append_right (Nat.le_refl _)]
        simp
    · rintro ⟨l, d, hs, hl, _, hal, had, i, hi0, hi1, hdot⟩
      have hd := split_at_index d i '.' hdot
      have hmem_take : ∀ c ∈ d.take i, c ∈ d := fun c hc => List.mem_of_mem_take hc
      have hmem_drop : ∀ c ∈ d.drop (i + 1), c ∈ d := fun c hc => List.mem_of_mem_drop hc
      refine (regexMatch_plus _ _ _).mpr ⟨l, '@' :: d, hs, hl, ?_, ?_⟩
      · intro c hc
        exact (notSpaceNorAt_iff c).mpr (hal c hc)
      · refine (regexMatch_lit _ _ _).mpr ⟨d, rfl, ?_⟩
        refine (regexMatch_plus _ _ _).mpr ⟨d.take i, '.' :: d.drop (i + 1), hd, ?_, ?_, ?_⟩
        · intro h0
          have hlen : (d.take i).length = 0 := by rw [h0]; rfl
          rw [List.length_take] at hlen
          omega
        · intro c hc
          exact (notSpaceNorAt_iff c).mpr (had c (hmem_take c hc))
        · refine (regexMatch_lit _ _ _).mpr ⟨d.drop (i + 1), rfl, ?_⟩
          refine (regexMatch_plus _ _ _).mpr ⟨d.drop (i + 1), [], by simp, ?_, ?_, by simp [regexMatch]⟩
          · intro h0
            have hlen : (d.drop (i + 1)).length = 0 := by rw [h0]; rfl
            rw [List.length_drop] at hlen
            omega
          · intro c hc
            exact (notSpaceNorAt_iff c).mpr (had c (hmem_drop c hc))
  refine ⟨hiff, ?_⟩
  intro h
  obtain ⟨l, d, hs, _, _, hal, had, _⟩ := hiff.mp h
  have hl0 : l.count '@' = 0 := List.count_eq_zero.mpr (fun hm => (hal _ hm).2 rfl)
  have hd0 : d.count '@' = 0 := List.count_eq_zero.mpr (fun hm => (had _ hm).2 rfl)
  rw [hs, List.count_append, List.count_cons_self, hl0, hd0]

/-! ## The login handler -/

/-- With the lock flag clear, the lockout query of `handleAdminLogin` changes nothing. -/
theorem isAdminLockedOut_unlocked (s : SecurityState) (now : Int) (h : s.isLockedOut = false) :
    isAdminLockedOut s now = (s, false) := by
  simp [isAdminLockedOut, h]

/-- C13, as stated, fails: five failures at time 0 lock the account; a
submission 900001 ms later finds the lockout run out, so it is made while not
locked out, and its malformed address `admin@example` stops it before the
authenticate call; yet `securityState` has changed, the lockout query having
cleared the flag and reset the counter from 5 to 0. -/
theorem expired_lock_cleared_by_invalid_submission :
    ({ initialWorld with
        securityState := (failedAttempts initialSecurityState [0, 0, 0, 0, 0]).1 }
      ).securityState.failedLoginAttempts = 5 ∧
    (isAdminLockedOut (failedAttempts initialSecurityState [0, 0, 0, 0, 0]).1 900001).2 = false ∧
    regexMatch emailRegex (jsTrim " admin@example ".toList) = false ∧
    (handleAdminLogin
      { initialWorld with
        securityState := (failedAttempts initialSecurityState [0, 0, 0, 0, 0]).1 }
      900001 900005 " admin@example " "Abc12345!" (.user "u1")).authenticateCalls = 0 ∧
    (handleAdminLogin
      { initialWorld with
        securityState := (failedAttempts initialSecurityState [0, 0, 0, 0, 0]).1 }
      900001 900005 " admin@example " "Abc12345!"
      (.user "u1")).world.securityState.failedLoginAttempts = 0 ∧
    (handleAdminLogin
      { initialWorld with
        securityState := (failedAttempts initialSecurityState [0, 0, 0, 0, 0]).1 }
      900001 900005 " admin@example " "Abc12345!" (.user "u1")).world.securityState ≠
      (failedAttempts initialSecurityState [0, 0, 0, 0, 0]).1 := by
  decide

/-- C13, amended: a submission made while the lockout query
`isAdminLockedOut()` answers false, whose trimmed email is empty or fails the
shape check, or whose password is empty, issues no authenticate call and is
not counted as a failed attempt: `lastLoginAttempt` is not stamped and
`failedLoginAttempts` does not grow. The page state is left as the lockout
query leaves it: unchanged when the lock flag was clear, and with
`isLockedOut` cleared and `failedLoginAttempts` reset to 0, nothing else,
when the flag was still set and the lockout had run out. -/
theorem handleAdminLogin_invalid_input_is_local (w : World) (now later : Int)
    (email password : String) (auth : AuthResult)
    (hunlocked : (isAdminLockedOut w.securityState now).2 = false)
    (hbad : (jsTrim email.toList).isEmpty = true ∨ password.toList.isEmpty = true ∨
      regexMatch emailRegex (jsTrim email.toList) = false) :
    (handleAdminLogin w now later email password auth).authenticateCalls = 0 ∧
    (handleAdminLogin w now later email password auth).world =
      { w with securityState := (isAdminLockedOut w.securityState now).1 } ∧
    (handleAdminLogin w now later email password auth).world.securityState.lastLoginAttempt =
      w.securityState.lastLoginAttempt ∧
    (handleAdminLogin w now later email password auth).world.securityState.failedLoginAttempts ≤
      w.securityState.failedLoginAttempts ∧
    (w.securityState.isLockedOut = false →
      (handleAdminLogin w now later email password auth).world = w) ∧
    (w.securityState.isLockedOut = true →
      now - toNumber w.securityState.lastLoginAttempt > LOCKOUT_DURATION ∧
      (handleAdminLogin w now later email password auth).world.securityState =
        { w.securityState with isLockedOut := false, failedLoginAttempts := 0 }) := by
  have hout : handleAdminLogin w now later email password auth =
      { world := { w with securityState := (isAdminLockedOut w.securityState now).1 },
        authenticateCalls := 0 } := by
    unfold handleAdminLogin
    dsimp only
    rw [hunlocked]
    generalize regexMatch emailRegex (jsTrim email.toList) = br at hbad ⊢
    generalize (jsTrim email.toList).isEmpty = be at hbad ⊢
    generalize password.toList.isEmpty = bp at hbad ⊢
    cases be <;> cases bp <;> cases br <;> simp at hbad ⊢
  rw [hout]
  dsimp only
  cases hl : w.securityState.isLockedOut with
  | false =>
    rw [isAdminLockedOut_unlocked w.securityState now hl]
    simp
  | true =>
    by_cases hexp : now - toNumber w.securityState.lastLoginAttempt > LOCKOUT_DURATION
    · have hq : isAdminLockedOut w.securityState now =
          ({ w.securityState with isLockedOut := false, failedLoginAttempts := 0 }, false) := by
        simp [isAdminLockedOut, hl, hexp]
      rw [hq]
      simp [hexp]
    · have hq : isAdminLockedOut w.securityState now = (w.securityState, true) := by
        simp [isAdminLockedOut, hl, hexp]
      rw [hq] at hunlocked
      simp at hunlocked

/-- The amended C13 on the expired lock: the malformed submission made
900001 ms after the fifth failure issues no call, keeps the time stamp and
leaves the counter at 0 and the flag cleared. -/
theorem handleAdminLogin_invalid_input_is_local_witness :
    (handleAdminLogin
      { initialWorld with
        securityState := (failedAttempts initialSecurityState [0, 0, 0, 0, 0]).1 }
      900001 900005 " admin@example " "Abc12345!" (.user "u1")).authenticateCalls = 0 ∧
    (handleAdminLogin
      { initialWorld with
        securityState := (failedAttempts initialSecurityState [0, 0, 0, 0, 0]).1 }
      900001 900005 " admin@example " "Abc12345!"
      (.user "u1")).world.securityState.lastLoginAttempt = some 0 ∧
    (handleAdminLogin
      { initialWorld with
        securityState := (failedAttempts initialSecurityState [0, 0, 0, 0, 0]).1 }
      900001 900005 " admin@example " "Abc12345!" (.user "u1")).world.securityState =
      { (failedAttempts initialSecurityState [0, 0, 0, 0, 0]).1 with
        isLockedOut := false, failedLoginAttempts := 0 } :=
  have h := handleAdminLogin_invalid_input_is_local
    { initialWorld with
      securityState := (failedAttempts initialSecurityState [0, 0, 0, 0, 0]).1 }
    900001 900005 " admin@example " "Abc12345!" (.user "u1") (by decide) (by decide)
  ⟨h.1, h.2.2.1, (h.2.2.2.2.2 (by decide)).2⟩

/-- C14, as stated, fails: the password `"abc"` has four strength
violations, yet a submission with it and a well-formed email is sent to the
authenticator, and its rejection is counted as a failed attempt. -/
theorem weak_password_reaches_backend :
    (validatePasswordStrength "abc").isValid = false ∧
    (validatePasswordStrength "abc").errors.length = 4 ∧
    (handleAdminLogin initialWorld 0 5 "admin@example.com" "abc"
      (.error "Invalid login credentials")).authenticateCalls = 1 ∧
    (handleAdminLogin initialWorld 0 5 "admin@example.com" "abc"
      (.error "Invalid login credentials")).world.securityState.failedLoginAttempts = 1 := by
  decide

/-- C14, amended: `handleAdminLogin` issues an authenticate call exactly when
the account is not locked out, the trimmed email and the password are
non-empty and the trimmed email passes the shape check, and it then issues
one; the strength of the password plays no part, and of all passwords only
the empty one is recovered locally. -/
theorem handleAdminLogin_authenticates_iff (w : World) (now later : Int)
    (email password : String) (auth : AuthResult) :
    ((handleAdminLogin w now later email password auth).authenticateCalls = 1 ↔
      (isAdminLockedOut w.securityState now).2 = false ∧
      (jsTrim email.toList).isEmpty = false ∧ password.toList.isEmpty = false ∧
      regexMatch emailRegex (jsTrim email.toList) = true) ∧
    ((handleAdminLogin w now later email password auth).authenticateCalls = 0 ∨
      (handleAdminLogin w now later email password auth).authenticateCalls = 1) ∧
    (password.toList.isEmpty = true →
      (handleAdminLogin w now later email password auth).authenticateCalls = 0) := by
  unfold handleAdminLogin
  dsimp only
  generalize regexMatch emailRegex (jsTrim email.toList) = br
  generalize (jsTrim email.toList).isEmpty = be
  generalize password.toList.isEmpty = bp
  generalize isAdminLockedOut w.securityState now = q
  obtain ⟨q1, q2⟩ := q
  cases q2 <;> cases be <;> cases bp <;> cases br <;> cases auth <;> simp

theorem handleFailedLoginAttempt_fields (s : SecurityState) (t : Int) :
    (handleFailedLoginAttempt s t).1.failedLoginAttempts = s.failedLoginAttempts + 1 ∧
    (handleFailedLoginAttempt s t).1.lastLoginAttempt = some t ∧
    ((handleFailedLoginAttempt s t).1.isLockedOut = true ↔
      5 ≤ s.failedLoginAttempts + 1 ∨ s.isLockedOut = true) := by
  unfold handleFailedLoginAttempt
  simp only [ge_iff_le, MAX_LOGIN_ATTEMPTS]
  by_cases h : 5 ≤ s.failedLoginAttempts + 1
  · simp [h]
  · simp [h]

/-- The lockout query asked at the very time of the last attempt changes nothing. -/
theorem isAdminLockedOut_at_last (s : SecurityState) (t : Int)
    (h : s.lastLoginAttempt = some t) : (isAdminLockedOut s t).1 = s := by
  unfold isAdminLockedOut
  cases hl : s.isLockedOut with
  | false => simp
  | true => simp [h, toNumber, LOCKOUT_DURATION]

/-- A well-formed submission made on an unlocked account and rejected by the
authenticator issues one call and runs `handleFailedLoginAttempt` once. -/
theorem submit_rejected (w : World) (s : Submission)
    (hun : w.securityState.isLockedOut = false) (hr : s.rejected) :
    (submit w s).authenticateCalls = 1 ∧
    (submit w s).world.securityState = (handleFailedLoginAttempt w.securityState s.later).1 := by
  obtain ⟨he, hp, hre, message, hauth⟩ := hr
  have hq := isAdminLockedOut_unlocked w.securityState s.now hun
  have hlast := isAdminLockedOut_at_last (handleFailedLoginAttempt w.securityState s.later).1
    s.later (handleFailedLoginAttempt_fields _ _).2.1
  unfold submit handleAdminLogin
  simp only [hq, hauth]
  generalize regexMatch emailRegex (jsTrim s.email.toList) = br at hre ⊢
  generalize (jsTrim s.email.toList).isEmpty = be at he ⊢
  generalize s.password.toList.isEmpty = bp at hp ⊢
  subst hre he hp
  simp [hlast]

/-- A submission made on a locked account before the lockout has run out is
turned away: no call, no change. -/
theorem submit_locked (w : World) (s : Submission)
    (hl : w.securityState.isLockedOut = true)
    (ht : s.now - toNumber w.securityState.lastLoginAttempt ≤ LOCKOUT_DURATION) :
    submit w s = { world := w, authenticateCalls := 0 } := by
  have hq : isAdminLockedOut w.securityState s.now = (w.securityState, true) := by
    unfold isAdminLockedOut
    simp [hl, not_lt.mpr ht]
  unfold submit handleAdminLogin
  simp [hq]

theorem submitAll_cons (w : World) (s : Submission) (rest : List Submission) :
    submitAll w (s :: rest) = submitAll (submit w s).world rest := by
  simp [submitAll]

/-- Up to the fifth, consecutive rejections add one each to the counter, and
the fifth sets the lock. -/
theorem submitAll_rejected (subs : List Submission) (w : World)
    (hun : w.securityState.isLockedOut = false)
    (hall : ∀ s ∈ subs, s.rejected)
    (hle : w.securityState.failedLoginAttempts + subs.length ≤ 5) :
    (submitAll w subs).securityState.failedLoginAttempts =
      w.securityState.failedLoginAttempts + subs.length ∧
    ((submitAll w subs).securityState.isLockedOut = true ↔
      subs ≠ [] ∧ w.securityState.failedLoginAttempts + subs.length = 5) ∧
    (∀ s, subs.getLast? = some s →
      (submitAll w subs).securityState.lastLoginAttempt = some s.later) := by
  induction subs generalizing w with
  | nil => simp [submitAll, hun]
  | cons s rest ih =>
    obtain ⟨_, hsec⟩ := submit_rejected w s hun (hall s (List.mem_cons_self _ _))
    obtain ⟨hf, hlast, hlock⟩ := handleFailedLoginAttempt_fields w.securityState s.later
    rw [← hsec] at hf hlast hlock
    simp only [List.length_cons] at hle
    rw [submitAll_cons]
    cases rest with
    | nil =>
      simp only [submitAll, List.foldl_nil, List.length_cons, List.length_nil]
      refine ⟨by omega, ?_, ?_⟩
      · rw [hlock]
        simp only [hun, or_false, ne_eq, reduceCtorEq, not_false_eq_true, true_and]
        simp only [List.length_nil] at hle
        omega
      · intro s1 hs1
        simp only [List.getLast?_singleton, Option.some.injEq] at hs1
        rw [← hs1]
        exact hlast
    | cons s2 rest2 =>
      simp only [List.length_cons] at hle
      have hun1 : (submit w s).world.securityState.isLockedOut = false := by
        cases hb : (submit w s).world.securityState.isLockedOut with
        | false => rfl
        | true =>
          rcases hlock.mp hb with h5 | h5
          · omega
          · rw [hun] at h5; cases h5
      obtain ⟨ih1, ih2, ih3⟩ := ih (submit w s).world hun1
        (fun x hx => hall x (List.mem_cons_of_mem _ hx))
        (by simp only [List.length_cons]; omega)
      refine ⟨?_, ?_, ?_⟩
      · rw [ih1, hf]
        simp only [List.length_cons]
        omega
      · rw [ih2, hf]
        simp only [List.length_cons, ne_eq, reduceCtorEq, not_false_eq_true, true_and]
        omega
      · intro s1 hs1
        apply ih3
        simpa [List.getLast?_cons_cons] using hs1

theorem submitAll_locked (more : List Submission) (w : World)
    (hl : w.securityState.isLockedOut = true)
    (hsoon : ∀ s ∈ more,
      s.now - toNumber w.securityState.lastLoginAttempt < LOCKOUT_DURATION) :
    submitAll w more = w := by
  induction more with
  | nil => rfl
  | cons s rest ih =>
    rw [submitAll_cons, submit_locked w s hl (le_of_lt (hsoon s (List.mem_cons_self _ _)))]
    exact ih (fun x hx => hsoon x (List.mem_cons_of_mem _ hx))

/-- C15: starting from the initial state, when the authenticator rejects five
well-formed submissions, each rejection adds exactly one to
`failedLoginAttempts` (after `k` of them the counter is `k`), the fifth sets
the lock and stamps `lastLoginAttempt` with its time, and every further
submission made less than `LOCKOUT_DURATION` after that time issues no
authenticate call and changes nothing, `failedLoginAttempts`,
`lastLoginAttempt` and `isLockedOut` included. -/
theorem lockout_after_five_rejections (subs more : List Submission)
    (hlen : subs.length = 5) (hrej : ∀ s ∈ subs, s.rejected)
    (hsoon : ∀ s ∈ more,
      s.now - toNumber (submitAll initialWorld subs).securityState.lastLoginAttempt
        < LOCKOUT_DURATION) :
    (∀ k, k ≤ 5 →
      (submitAll initialWorld (subs.take k)).securityState.failedLoginAttempts = k) ∧
    (submitAll initialWorld subs).securityState.isLockedOut = true ∧
    (∀ s, subs.getLast? = some s →
      (submitAll initialWorld subs).securityState.lastLoginAttempt = some s.later) ∧
    (∀ s ∈ more,
      (submit (submitAll initialWorld subs) s).authenticateCalls = 0 ∧
      (submit (submitAll initialWorld subs) s).world = submitAll initialWorld subs) ∧
    submitAll (submitAll initialWorld subs) more = submitAll initialWorld subs := by
  have hinit : initialWorld.securityState.isLockedOut = false := rfl
  have hzero : initialWorld.securityState.failedLoginAttempts = 0 := rfl
  obtain ⟨_, h5lock, h5last⟩ := submitAll_rejected subs initialWorld hinit hrej
    (by rw [hzero]; omega)
  have hlocked : (submitAll initialWorld subs).securityState.isLockedOut = true := by
    rw [h5lock, hzero, hlen]
    refine ⟨?_, by omega⟩
    intro h0
    rw [h0] at hlen
    cases hlen
  refine ⟨?_, hlocked, h5last, ?_, submitAll_locked more _ hlocked hsoon⟩
  · intro k hk
    have htake : (subs.take k).length = k := by
      rw [List.length_take, hlen]
      omega
    have := (submitAll_rejected (subs.take k) initialWorld hinit
      (fun s hs => hrej s (List.mem_of_mem_take hs)) (by rw [hzero, htake]; omega)).1
    rw [this, hzero, htake]
    omega
  · intro s hs
    rw [submit_locked _ s hlocked (le_of_lt (hsoon s hs))]
    exact ⟨rfl, rfl⟩

/-- The lockout of C15 on five rejected submissions, one a second, followed
by a sixth one minute later. -/
theorem lockout_after_five_rejections_witness :
    (∀ k, k ≤ 5 →
      (submitAll initialWorld (([0, 1, 2, 3, 4].map (fun t : Int =>
        (⟨t * 1000, t * 1000 + 200, "admin@example.com", "wrong",
          .error "Invalid login credentials"⟩ : Submission))).take k)).securityState.failedLoginAttempts
        = k) ∧
    (submitAll initialWorld ([0, 1, 2, 3, 4].map (fun t : Int =>
      (⟨t * 1000, t * 1000 + 200, "admin@example.com", "wrong",
        .error "Invalid login credentials"⟩ : Submission)))).securityState.isLockedOut = true ∧
    (∀ s, ([0, 1, 2, 3, 4].map (fun t : Int =>
      (⟨t * 1000, t * 1000 + 200, "admin@example.com", "wrong",
        .error "Invalid login credentials"⟩ : Submission))).getLast? = some s →
      (submitAll initialWorld ([0, 1, 2, 3, 4].map (fun t : Int =>
        (⟨t * 1000, t * 1000 + 200, "admin@example.com", "wrong",
          .error "Invalid login credentials"⟩ : Submission)))).securityState.lastLoginAttempt
        = some s.later) ∧
    (∀ s ∈ [(⟨64200, 64400, "admin@example.com", "Abc12345!", .user "u1"⟩ : Submission)],
      (submit (submitAll initialWorld ([0, 1, 2, 3, 4].map (fun t : Int =>
        (⟨t * 1000, t * 1000 + 200, "admin@example.com", "wrong",
          .error "Invalid login credentials"⟩ : Submission)))) s).authenticateCalls = 0 ∧
      (submit (submitAll initialWorld ([0, 1, 2, 3, 4].map (fun t : Int =>
        (⟨t * 1000, t * 1000 + 200, "admin@example.com", "wrong",
          .error "Invalid login credentials"⟩ : Submission)))) s).world =
        submitAll initialWorld ([0, 1, 2, 3, 4].map (fun t : Int =>
          (⟨t * 1000, t * 1000 + 200, "admin@example.com", "wrong",
            .error "Invalid login credentials"⟩ : Submission)))) ∧
    submitAll (submitAll initialWorld ([0, 1, 2, 3, 4].map (fun t : Int =>
      (⟨t * 1000, t * 1000 + 200, "admin@example.com", "wrong",
        .error "Invalid login credentials"⟩ : Submission))))
      [⟨64200, 64400, "admin@example.com", "Abc12345!", .user "u1"⟩] =
      submitAll initialWorld ([0, 1, 2, 3, 4].map (fun t : Int =>
        (⟨t * 1000, t * 1000 + 200, "admin@example.com", "wrong",
          .error "Invalid login credentials"⟩ : Submission))) :=
  lockout_after_five_rejections
    ([0, 1, 2, 3, 4].map (fun t : Int =>
      (⟨t * 1000, t * 1000 + 200, "admin@example.com", "wrong",
        .error "Invalid login credentials"⟩ : Submission)))
    [⟨64200, 64400, "admin@example.com", "Abc12345!", .user "u1"⟩]
    (by decide)
    (by
      intro s hs
      obtain ⟨t, _, rfl⟩ := List.mem_map.mp hs
      exact ⟨by dsimp only; decide, by dsimp only; decide, by dsimp only; decide, _, rfl⟩)
    (by
      intro s hs
      rw [List.mem_singleton] at hs
      subst hs
      decide)

/-! ## The analytics mirror as a dictionary -/

theorem mirror_get_nil (key : String) : Mirror.get [] key = none := rfl

theorem mirror_get_cons (k : String) (e : AnalyticsEntry) (m : Mirror) (key : String) :
    Mirror.get ((k, e) :: m) key = if k = key then some e else Mirror.get m key := by
  unfold Mirror.get
  by_cases h : k = key
  · simp [List.find?_cons, h]
  · simp [List.find?_cons, h]

theorem mirror_get_modify (m : Mirror) (k : String) (f : AnalyticsEntry → AnalyticsEntry)
    (key : String) :
    Mirror.get (Mirror.modify m k f) key =
      if key = k then (Mirror.get m k).map f else Mirror.get m key := by
  induction m with
  | nil => simp [Mirror.modify, mirror_get_nil]
  | cons p rest ih =>
    obtain ⟨k0, e0⟩ := p
    have hstep : Mirror.modify ((k0, e0) :: rest) k f =
        (if k0 = k then (k0, f e0) else (k0, e0)) :: Mirror.modify rest k f := by
      simp [Mirror.modify]
    rw [hstep]
    by_cases h0 : k0 = k
    · subst h0
      by_cases hk : key = k0
      · subst hk
        simp [mirror_get_cons]
      · have hk2 : ¬ k0 = key := fun h => hk h.symm
        simp only [if_true, mirror_get_cons, hk, hk2, if_false]
        rw [ih]
        simp [hk]
    · by_cases hk : key = k
      · subst hk
        simp only [h0, if_false, mirror_get_cons, if_true]
        rw [ih]
        simp
      · simp only [h0, if_false, mirror_get_cons, hk]
        rw [ih]
        simp [hk]

theorem mirror_keys_modify (m : Mirror) (k : String) (f : AnalyticsEntry → AnalyticsEntry) :
    (Mirror.modify m k f).map Prod.fst = m.map Prod.fst := by
  unfold Mirror.modify
  rw [List.map_map]
  apply List.map_congr_left
  intro p _
  by_cases h : p.1 = k <;> simp [h]

theorem mirror_set_absent (m : Mirror) (k : String) (e : AnalyticsEntry)
    (h : Mirror.get m k = none) : Mirror.set m k e = m ++ [(k, e)] := by
  simp [Mirror.set, h]

theorem mirror_get_snoc (m : Mirror) (k : String) (e : AnalyticsEntry) (key : String)
    (h : Mirror.get m k = none) :
    Mirror.get (m ++ [(k, e)]) key = if key = k then some e else Mirror.get m key := by
  induction m with
  | nil =>
    rw [List.nil_append, mirror_get_cons, mirror_get_nil]
    by_cases hk : key = k
    · simp [hk]
    · have hk2 : ¬ k = key := fun h => hk h.symm
      simp [hk, hk2]
  | cons p rest ih =>
    obtain ⟨k0, e0⟩ := p
    rw [mirror_get_cons] at h
    by_cases h0 : k0 = k
    · simp [h0] at h
    · simp only [h0, if_false] at h
      rw [List.cons_append, mirror_get_cons, mirror_get_cons, ih h]
      by_cases hk : key = k
      · subst hk
        simp [h0]
      · simp [hk]

theorem mirror_inherits_congr (m v : Mirror) (k : String) (h : Mirror.get m k = Mirror.get v k) :
    Mirror.inherits m k = Mirror.inherits v k := by
  unfold Mirror.inherits
  rw [h]

theorem mirror_truthy_eq (m : Mirror) (k : String) :
    Mirror.truthy m k = ((Mirror.get m k).isSome || objectPrototypeNames.contains k) := by
  unfold Mirror.truthy Mirror.inherits
  cases Mirror.get m k <;> simp

theorem mirror_modify_absent (m : Mirror) (k : String) (f : AnalyticsEntry → AnalyticsEntry)
    (h : Mirror.get m k = none) : Mirror.modify m k f = m := by
  induction m with
  | nil => rfl
  | cons p rest ih =>
    obtain ⟨k0, e0⟩ := p
    rw [mirror_get_cons] at h
    by_cases h0 : k0 = k
    · simp [h0] at h
    · simp only [h0, if_false] at h
      have := ih h
      unfold Mirror.modify at this ⊢
      rw [List.map_cons, this]
      simp [h0]

/-- Looking up a key after the handlers have made sure that `carAnalytics[id]`
is truthy: an entry is created unless one exists or the name is inherited. -/
theorem mirror_get_ensure (m : Mirror) (id key : String) :
    Mirror.get (if !Mirror.truthy m id then Mirror.set m id zeroEntry else m) key =
      if key = id ∧ Mirror.inherits m id = false then some ((Mirror.get m id).getD zeroEntry)
      else Mirror.get m key := by
  unfold Mirror.truthy Mirror.inherits
  cases hg : Mirror.get m id with
  | none =>
    cases hc : objectPrototypeNames.contains id with
    | true => simp
    | false =>
      simp only [Option.isSome_none, Option.isNone_none, Bool.and_false, Bool.or_false,
        Bool.not_false, if_true, Option.getD_none, and_true]
      rw [mirror_set_absent m id zeroEntry hg, mirror_get_snoc m id zeroEntry key hg]
  | some e =>
    by_cases hk : key = id
    · subst hk
      simp [hg]
    · simp [hk]

/-- With an inherited member under `id` and no own entry, the handlers' guard
creates nothing. -/
theorem mirror_ensure_inherited (m : Mirror) (id : String) (h : Mirror.inherits m id = true) :
    (if !Mirror.truthy m id then Mirror.set m id zeroEntry else m) = m := by
  simp [Mirror.truthy, h]

theorem mirror_inherits_get (m : Mirror) (id : String) (h : Mirror.inherits m id = true) :
    Mirror.get m id = none := by
  unfold Mirror.inherits at h
  cases hg : Mirror.get m id with
  | none => rfl
  | some e => simp [hg] at h

/-! ## Local and remote analytics events -/

/-- C17: for every mirror and every non-empty identifier under which
`carAnalytics[id]` is not an inherited member, `handleCarViewTracked` adds
exactly one to that identifier's `details_clicks` and `daily_details_clicks`,
counting from an all-zero entry when there was none, keeps its `buy_clicks`
and `daily_buy_clicks`, and keeps every other entry. Under an identifier that
names a member of `Object.prototype` and has no entry the guard finds the
inherited member, no entry is created and the mirror stays as it is: a view
of `"constructor"` leaves the empty mirror empty. After the load of entity
`"42"` with lifetime counters 10 and 3 and no events, a local view leaves
`daily_details_clicks = 1`. -/
theorem handleCarViewTracked_increments (m : Mirror) (id : String) :
    (id ≠ "" → Mirror.inherits m id = false →
      Mirror.get (handleCarViewTracked m (some id)) id =
        some { details_clicks := ((Mirror.get m id).getD zeroEntry).details_clicks + 1
               buy_clicks := ((Mirror.get m id).getD zeroEntry).buy_clicks
               daily_details_clicks :=
                 ((Mirror.get m id).getD zeroEntry).daily_details_clicks + 1
               daily_buy_clicks := ((Mirror.get m id).getD zeroEntry).daily_buy_clicks } ∧
      (∀ k, k ≠ id → Mirror.get (handleCarViewTracked m (some id)) k = Mirror.get m k)) ∧
    (id ≠ "" → Mirror.inherits m id = true → handleCarViewTracked m (some id) = m) ∧
    (Mirror.inherits [] "constructor" = true ∧
      handleCarViewTracked [] (some "constructor") = [] ∧
      Mirror.get (handleCarViewTracked [] (some "constructor")) "constructor" = none) ∧
    Mirror.get (handleCarViewTracked (bulkLoad [⟨"42", some 10, some 3, true⟩] []) (some "42"))
        "42" =
      some { details_clicks := 11, buy_clicks := 3, daily_details_clicks := 1,
             daily_buy_clicks := 0 } := by
  refine ⟨?_, ?_, by decide, by decide⟩
  · intro hid hown
    constructor
    · unfold handleCarViewTracked
      simp only [hid, ne_eq, not_false_eq_true, if_true]
      simp only [mirror_get_modify, mirror_get_ensure, hown]
      simp
    · intro k hk
      unfold handleCarViewTracked
      simp only [hid, ne_eq, not_false_eq_true, if_true, mirror_get_modify, mirror_get_ensure, hk,
        if_false, false_and]
  · intro hid hinh
    unfold handleCarViewTracked
    simp only [hid, ne_eq, not_false_eq_true, if_true, mirror_ensure_inherited m id hinh]
    rw [mirror_modify_absent m id _ (mirror_inherits_get m id hinh),
      mirror_modify_absent m id _ (mirror_inherits_get m id hinh)]

/-- C20: for an INSERT notification with non-empty `car_id` and `event_type`
under whose `car_id` the mirror holds no inherited member, the remote handler
first creates an all-zero entry when `car_id` has none, then adds exactly one
to that entry's `daily_details_clicks` for `view`, to its `daily_buy_clicks`
for `contact_click`, and nothing for any other type; every other entry is
kept, and a notification whose `car_id` or `event_type` is missing or empty
changes nothing. A `car_id` that names a member of `Object.prototype` and has
no entry is not tolerated that way: the guard finds the inherited member, no
entry is created and the mirror stays as it is, as for a `view` of
`"constructor"` on the empty mirror. -/
theorem subscribeToAnalyticsOnInsert_tolerates_unknown (m : Mirror) (payload : AnalyticsEvent) :
    (∀ id ty, payload.car_id = some id → payload.event_type = some ty → id ≠ "" → ty ≠ "" →
      Mirror.inherits m id = false →
      Mirror.get (subscribeToAnalyticsOnInsert m payload) id =
        some { details_clicks := ((Mirror.get m id).getD zeroEntry).details_clicks
               buy_clicks := ((Mirror.get m id).getD zeroEntry).buy_clicks
               daily_details_clicks :=
                 ((Mirror.get m id).getD zeroEntry).daily_details_clicks +
                   (if ty = "view" then 1 else 0)
               daily_buy_clicks :=
                 ((Mirror.get m id).getD zeroEntry).daily_buy_clicks +
                   (if ty = "contact_click" then 1 else 0) } ∧
      (Mirror.get m id = none → ty ≠ "view" → ty ≠ "contact_click" →
        Mirror.get (subscribeToAnalyticsOnInsert m payload) id = some zeroEntry) ∧
      ∀ k, k ≠ id → Mirror.get (subscribeToAnalyticsOnInsert m payload) k = Mirror.get m k) ∧
    (∀ id, payload.car_id = some id → Mirror.inherits m id = true →
      subscribeToAnalyticsOnInsert m payload = m) ∧
    (payload.car_id = none ∨ payload.car_id = some "" ∨
      payload.event_type = none ∨ payload.event_type = some "" →
      subscribeToAnalyticsOnInsert m payload = m) ∧
    (Mirror.inherits [] "constructor" = true ∧
      subscribeToAnalyticsOnInsert [] ⟨some "constructor", some "view"⟩ = [] ∧
      Mirror.get (subscribeToAnalyticsOnInsert [] ⟨some "constructor", some "view"⟩)
        "constructor" = none) := by
  obtain ⟨car_id, event_type⟩ := payload
  refine ⟨?_, ?_, ?_, by decide⟩
  · intro id ty hc ht hid hty hown
    simp only at hc ht
    subst hc ht
    unfold subscribeToAnalyticsOnInsert
    simp only [hid, hty, ne_eq, not_false_eq_true, and_self, if_true]
    by_cases hv : ty = "view"
    · subst hv
      refine ⟨?_, ?_, ?_⟩
      · simp only [if_true, mirror_get_modify, mirror_get_ensure, hown]
        simp
      · intro _ h; exact absurd rfl h
      · intro k hk
        simp only [if_true, mirror_get_modify, mirror_get_ensure, hk, if_false, false_and]
    · by_cases hcc : ty = "contact_click"
      · subst hcc
        refine ⟨?_, ?_, ?_⟩
        · simp only [hv, if_true, if_false, mirror_get_modify, mirror_get_ensure, hown]
          simp
        · intro _ _ h; exact absurd rfl h
        · intro k hk
          simp only [hv, if_true, if_false, mirror_get_modify, mirror_get_ensure, hk, false_and]
      · refine ⟨?_, ?_, ?_⟩
        · simp only [hv, hcc, if_true, if_false, mirror_get_ensure, hown]
          simp
        · intro hnone _ _
          simp only [hv, hcc, if_true, if_false, mirror_get_ensure, hown]
          simp [hnone]
        · intro k hk
          simp only [hv, hcc, if_false, mirror_get_ensure, hk, false_and]
  · intro id hc hinh
    simp only at hc
    subst hc
    have hnone := mirror_inherits_get m id hinh
    unfold subscribeToAnalyticsOnInsert
    cases event_type with
    | none => rfl
    | some ty =>
      dsimp only
      split
      · simp only [mirror_ensure_inherited m id hinh]
        split
        · exact mirror_modify_absent m id _ hnone
        · split
          · exact mirror_modify_absent m id _ hnone
          · rfl
      · rfl
  · intro h
    unfold subscribeToAnalyticsOnInsert
    rcases h with h | h | h | h
    · simp only at h
      subst h
      rfl
    · simp only at h
      subst h
      cases event_type <;> simp
    · simp only at h
      subst h
      cases car_id <;> rfl
    · simp only at h
      subst h
      cases car_id <;> simp

/-- C19, as stated, fails: on the empty mirror a `view` of `"42"` leaves
`details_clicks = 1` through the local handler and `details_clicks = 0`
through the remote one, so the two mirrors differ. -/
theorem remote_view_is_not_local_view :
    handleCarViewTracked [] (some "42") = [("42", ⟨1, 0, 1, 0⟩)] ∧
    subscribeToAnalyticsOnInsert [] ⟨some "42", some "view"⟩ = [("42", ⟨0, 0, 1, 0⟩)] ∧
    subscribeToAnalyticsOnInsert [] ⟨some "42", some "view"⟩ ≠
      handleCarViewTracked [] (some "42") := by
  decide

/-- C19, amended: for every mirror and non-empty identifier under which the
mirror holds no inherited member, the remote handler applied to a `view` and
the local handler yield mirrors with the same keys that agree on every entry
but that identifier's, and there they agree on `daily_details_clicks` (both
add one), `buy_clicks` and `daily_buy_clicks` and differ in `details_clicks`,
which only the local handler increments; the two mirrors are never equal. -/
theorem remote_view_differs_in_lifetime_only (m : Mirror) (id : String) (hid : id ≠ "")
    (hown : Mirror.inherits m id = false) :
    (subscribeToAnalyticsOnInsert m ⟨some id, some "view"⟩).map Prod.fst =
      (handleCarViewTracked m (some id)).map Prod.fst ∧
    (∃ e, Mirror.get (subscribeToAnalyticsOnInsert m ⟨some id, some "view"⟩) id = some e ∧
      Mirror.get (handleCarViewTracked m (some id)) id =
        some { e with details_clicks := e.details_clicks + 1 }) ∧
    (∀ k, k ≠ id →
      Mirror.get (subscribeToAnalyticsOnInsert m ⟨some id, some "view"⟩) k =
        Mirror.get (handleCarViewTracked m (some id)) k) ∧
    subscribeToAnalyticsOnInsert m ⟨some id, some "view"⟩ ≠ handleCarViewTracked m (some id) := by
  have hview : ("view" : String) ≠ "" := by decide
  have hremote : Mirror.get (subscribeToAnalyticsOnInsert m ⟨some id, some "view"⟩) id =
      some { (Mirror.get m id).getD zeroEntry with
        daily_details_clicks := ((Mirror.get m id).getD zeroEntry).daily_details_clicks + 1 } := by
    unfold subscribeToAnalyticsOnInsert
    simp only [hid, hview, ne_eq, not_false_eq_true, and_self, if_true, mirror_get_modify,
      mirror_get_ensure, hown]
    simp
  have hlocal : Mirror.get (handleCarViewTracked m (some id)) id =
      some { (Mirror.get m id).getD zeroEntry with
        details_clicks := ((Mirror.get m id).getD zeroEntry).details_clicks + 1
        daily_details_clicks := ((Mirror.get m id).getD zeroEntry).daily_details_clicks + 1 } := by
    unfold handleCarViewTracked
    simp only [hid, ne_eq, not_false_eq_true, if_true, mirror_get_modify, mirror_get_ensure, hown]
    simp
  refine ⟨?_, ⟨_, hremote, by rw [hlocal]⟩, ?_, ?_⟩
  · unfold subscribeToAnalyticsOnInsert handleCarViewTracked
    simp only [hid, hview, ne_eq, not_false_eq_true, and_self, if_true, mirror_keys_modify]
  · intro k hk
    unfold subscribeToAnalyticsOnInsert handleCarViewTracked
    simp only [hid, hview, ne_eq, not_false_eq_true, and_self, if_true, mirror_get_modify,
      mirror_get_ensure, hk, if_false, false_and]
  · intro heq
    rw [heq, hlocal] at hremote
    simp only [Option.some.injEq, AnalyticsEntry.mk.injEq] at hremote
    omega

/-- The comparison of C19 on the mirror that holds entity `"42"`. -/
theorem remote_view_differs_in_lifetime_only_witness :
    (subscribeToAnalyticsOnInsert [("42", ⟨10, 3, 0, 0⟩)] ⟨some "42", some "view"⟩).map Prod.fst =
      (handleCarViewTracked [("42", ⟨10, 3, 0, 0⟩)] (some "42")).map Prod.fst ∧
    subscribeToAnalyticsOnInsert [("42", ⟨10, 3, 0, 0⟩)] ⟨some "42", some "view"⟩ ≠
      handleCarViewTracked [("42", ⟨10, 3, 0, 0⟩)] (some "42") :=
  ⟨(remote_view_differs_in_lifetime_only [("42", ⟨10, 3, 0, 0⟩)] "42" (by decide)
      (by decide)).1,
   (remote_view_differs_in_lifetime_only [("42", ⟨10, 3, 0, 0⟩)] "42" (by decide)
      (by decide)).2.2.2⟩

/-- C18, as stated, fails: on the mirror that holds entity `"42"` with
lifetime counters 10 and 3, a local `carContactClicked` for `"42"` leaves
`buy_clicks = 3` and `daily_buy_clicks = 0`, whereas a local `carViewTracked`
raises both details counters. -/
theorem local_contact_click_leaves_mirror :
    Mirror.get (dispatchEvent [("42", ⟨10, 3, 0, 0⟩)] "carContactClicked" (some "42")).1 "42" =
      some { details_clicks := 10, buy_clicks := 3, daily_details_clicks := 0,
             daily_buy_clicks := 0 } ∧
    Mirror.get (dispatchEvent [("42", ⟨10, 3, 0, 0⟩)] "carViewTracked" (some "42")).1 "42" =
      some { details_clicks := 11, buy_clicks := 3, daily_details_clicks := 1,
             daily_buy_clicks := 0 } := by
  decide

/-- C18, amended: for every mirror and identifier, a local `carContactClicked`
event leaves the in-memory mirror as it is; its listener only issues the
`increment_buy_clicks` backend call, once, when the identifier is non-empty.
Of the two local events only `carViewTracked` changes the mirror, through
`handleCarViewTracked`; a contact click reaches the mirror through the remote
notification alone, which, under an identifier that holds no inherited
member, adds one to `daily_buy_clicks` and leaves `buy_clicks`. -/
theorem local_contact_click_only_calls_backend (m : Mirror) (carId : Option String) :
    (dispatchEvent m "carContactClicked" carId).1 = m ∧
    ((dispatchEvent m "carContactClicked" carId).2 = 1 ↔ ∃ id, carId = some id ∧ id ≠ "") ∧
    ((dispatchEvent m "carContactClicked" carId).2 = 0 ∨
      (dispatchEvent m "carContactClicked" carId).2 = 1) ∧
    dispatchEvent m "carViewTracked" carId = (handleCarViewTracked m carId, 0) ∧
    (∀ id, id ≠ "" → Mirror.inherits m id = false →
      Mirror.get (subscribeToAnalyticsOnInsert m ⟨some id, some "contact_click"⟩) id =
        some { (Mirror.get m id).getD zeroEntry with
          daily_buy_clicks := ((Mirror.get m id).getD zeroEntry).daily_buy_clicks + 1 }) := by
  have hne : ("carContactClicked" : String) ≠ "carViewTracked" := by decide
  have hcc : ("contact_click" : String) ≠ "" := by decide
  have hcv : ("contact_click" : String) ≠ "view" := by decide
  refine ⟨?_, ?_, ?_, ?_, ?_⟩
  · unfold dispatchEvent carContactClickedListener
    simp only [hne, if_false, if_true]
    cases carId with
    | none => rfl
    | some id => by_cases h : id = "" <;> simp [h]
  · unfold dispatchEvent carContactClickedListener
    simp only [hne, if_false, if_true]
    cases carId with
    | none => simp
    | some id => by_cases h : id = "" <;> simp [h]
  · unfold dispatchEvent carContactClickedListener
    simp only [hne, if_false, if_true]
    cases carId with
    | none => simp
    | some id => by_cases h : id = "" <;> simp [h]
  · simp [dispatchEvent]
  · intro id hid hown
    unfold subscribeToAnalyticsOnInsert
    simp only [hid, hcc, hcv, ne_eq, not_false_eq_true, and_self, if_true, if_false,
      mirror_get_modify, mirror_get_ensure, hown]
    simp

/-! ## The bulk load -/

theorem initAnalytics_cons_fresh (m : Mirror) (car : Car) (rest : List Car)
    (h : Mirror.truthy m car.id = false) :
    initAnalytics m (car :: rest) =
      initAnalytics (m ++ [(car.id,
        { details_clicks := car.details_clicks.getD 0
          buy_clicks := car.buy_clicks.getD 0
          daily_details_clicks := 0
          daily_buy_clicks := 0 })]) rest := by
  have hg : Mirror.get m car.id = none := by
    rw [mirror_truthy_eq] at h
    cases hg : Mirror.get m car.id with
    | none => rfl
    | some e => simp [hg] at h
  simp only [initAnalytics, h, Bool.not_false, if_true]
  rw [mirror_set_absent m car.id _ hg]

/-- A car under whose identifier `carAnalytics` already holds something
truthy, an entry or an inherited member, is passed over. -/
theorem initAnalytics_cons_skip (m : Mirror) (car : Car) (rest : List Car)
    (h : Mirror.truthy m car.id = true) :
    initAnalytics m (car :: rest) = initAnalytics m rest := by
  simp [initAnalytics, h]

/-- Cars with distinct identifiers under which the mirror holds nothing
truthy each get their entry, in order, and nothing else changes. -/
theorem initAnalytics_spec (cars : List Car) (m : Mirror)
    (hnd : (cars.map (fun c => c.id)).Nodup)
    (hfresh : ∀ c ∈ cars, Mirror.truthy m c.id = false) :
    (initAnalytics m cars).map Prod.fst = m.map Prod.fst ++ cars.map (fun c => c.id) ∧
    (∀ c ∈ cars, Mirror.get (initAnalytics m cars) c.id =
      some { details_clicks := c.details_clicks.getD 0
             buy_clicks := c.buy_clicks.getD 0
             daily_details_clicks := 0
             daily_buy_clicks := 0 }) ∧
    (∀ k, k ∉ cars.map (fun c => c.id) →
      Mirror.get (initAnalytics m cars) k = Mirror.get m k) := by
  induction cars generalizing m with
  | nil => simp [initAnalytics]
  | cons car rest ih =>
    have htr : Mirror.truthy m car.id = false := hfresh car (List.mem_cons_self _ _)
    have hcar : Mirror.get m car.id = none := by
      rw [mirror_truthy_eq] at htr
      cases hg : Mirror.get m car.id with
      | none => rfl
      | some e => simp [hg] at htr
    simp only [List.map_cons, List.nodup_cons] at hnd
    obtain ⟨hnotin, hnd1⟩ := hnd
    rw [initAnalytics_cons_fresh m car rest htr]
    have hfresh1 : ∀ c ∈ rest, Mirror.truthy (m ++ [(car.id,
        { details_clicks := car.details_clicks.getD 0
          buy_clicks := car.buy_clicks.getD 0
          daily_details_clicks := 0
          daily_buy_clicks := 0 })]) c.id = false := by
      intro c hc
      have hne : c.id ≠ car.id := by
        intro heq
        exact hnotin (List.mem_map.mpr ⟨c, hc, heq⟩)
      have hold := hfresh c (List.mem_cons_of_mem _ hc)
      rw [mirror_truthy_eq] at hold ⊢
      rw [mirror_get_snoc m car.id _ c.id hcar]
      simp only [hne, if_false]
      exact hold
    obtain ⟨ih1, ih2, ih3⟩ := ih _ hnd1 hfresh1
    refine ⟨?_, ?_, ?_⟩
    · rw [ih1]
      simp
    · intro c hc
      rcases List.mem_cons.mp hc with rfl | hc
      · rw [ih3 _ hnotin, mirror_get_snoc m c.id _ c.id hcar]
        simp
      · exact ih2 c hc
    · intro k hk
      simp only [List.map_cons, List.mem_cons, not_or] at hk
      rw [ih3 k hk.2, mirror_get_snoc m car.id _ k hcar]
      simp [hk.1]

theorem eventCount_nil (key ty : String) : eventCount [] key ty = 0 := rfl

theorem eventCount_cons (ev : AnalyticsEvent) (rest : List AnalyticsEvent) (key ty : String) :
    eventCount (ev :: rest) key ty =
      (if propertyKey ev.car_id = key ∧ ev.event_type = some ty then 1 else 0) +
        eventCount rest key ty := by
  unfold eventCount
  by_cases h1 : propertyKey ev.car_id = key <;> by_cases h2 : ev.event_type = some ty <;>
    (simp [List.filter_cons, h1, h2]; try omega)

/-- The replay of one event adds at most one to one daily counter of the
entry it names and touches nothing else. -/
theorem replayEvent_get (m : Mirror) (ev : AnalyticsEvent) (k : String) :
    Mirror.get (replayEvent m ev) k =
      (Mirror.get m k).map (fun e =>
        { e with
          daily_details_clicks := e.daily_details_clicks +
            (if propertyKey ev.car_id = k ∧ ev.event_type = some "view" then 1 else 0)
          daily_buy_clicks := e.daily_buy_clicks +
            (if propertyKey ev.car_id = k ∧ ev.event_type = some "contact_click"
              then 1 else 0) }) := by
  have hvc : (some "view" : Option String) ≠ some "contact_click" := by decide
  unfold replayEvent
  simp only
  by_cases hk : k = propertyKey ev.car_id
  · subst hk
    cases hg : Mirror.get m (propertyKey ev.car_id) with
    | none =>
      simp only [Option.map_none']
      split
      · split
        · rw [mirror_get_modify]; simp [hg]
        · split
          · rw [mirror_get_modify]; simp [hg]
          · exact hg
      · exact hg
    | some e =>
      have ht : Mirror.truthy m (propertyKey ev.car_id) = true := by
        rw [mirror_truthy_eq, hg]; rfl
      simp only [ht, if_true, Option.map_some', true_and]
      by_cases hv : ev.event_type = some "view"
      · have hc : ev.event_type ≠ some "contact_click" := by rw [hv]; exact hvc
        simp [hv, mirror_get_modify, hg]
      · by_cases hc : ev.event_type = some "contact_click"
        · simp [hv, hc, mirror_get_modify, hg]
        · simp [hv, hc, hg]
  · have hk2 : ¬ propertyKey ev.car_id = k := fun h => hk h.symm
    simp only [hk2, false_and, if_false, add_zero]
    have hid : (Mirror.get m k).map (fun e : AnalyticsEntry =>
        { e with daily_details_clicks := e.daily_details_clicks,
                 daily_buy_clicks := e.daily_buy_clicks }) = Mirror.get m k := by
      cases Mirror.get m k <;> rfl
    rw [hid]
    split
    · split
      · rw [mirror_get_modify]; simp [hk]
      · split
        · rw [mirror_get_modify]; simp [hk]
        · rfl
    · rfl

theorem replayEvent_keys (m : Mirror) (ev : AnalyticsEvent) :
    (replayEvent m ev).map Prod.fst = m.map Prod.fst := by
  unfold replayEvent
  simp only
  split
  · split
    · exact mirror_keys_modify _ _ _
    · split
      · exact mirror_keys_modify _ _ _
      · rfl
  · rfl

theorem replay_keys (events : List AnalyticsEvent) (m : Mirror) :
    (events.foldl replayEvent m).map Prod.fst = m.map Prod.fst := by
  induction events generalizing m with
  | nil => rfl
  | cons ev rest ih => rw [List.foldl_cons, ih, replayEvent_keys]

/-- The replay of a list of events adds to each entry's daily counters the
number of events of each type recorded for its key, and nothing else. -/
theorem replay_get (events : List AnalyticsEvent) (m : Mirror) (k : String) :
    Mirror.get (events.foldl replayEvent m) k =
      (Mirror.get m k).map (fun e =>
        { e with
          daily_details_clicks := e.daily_details_clicks + eventCount events k "view"
          daily_buy_clicks := e.daily_buy_clicks + eventCount events k "contact_click" }) := by
  induction events generalizing m with
  | nil =>
    simp only [List.foldl_nil, eventCount_nil, add_zero]
    cases Mirror.get m k <;> rfl
  | cons ev rest ih =>
    rw [List.foldl_cons, ih, replayEvent_get, eventCount_cons, eventCount_cons]
    cases Mirror.get m k with
    | none => rfl
    | some e =>
      simp only [Option.map_some', Option.some.injEq, AnalyticsEntry.mk.injEq, true_and]
      constructor <;> omega

/-- With rows that all carry `meta`, a run of `loadAdminCars` that nothing
interrupts and whose queries both answer builds the mirror of `bulkLoad` and
goes on to `initDailyStatsReset`. -/
theorem loadAdminCars_quiet (w : World) (now : Int) (cars : List Car)
    (events : List AnalyticsEvent) (hmeta : renderAdminCarsTable cars = true) :
    loadAdminCars w now (.data (some cars)) (.data (some events)) =
      initDailyStatsReset
        { w with adminCars := cars, carAnalytics := bulkLoad cars events } now := by
  unfold loadAdminCars loadAdminCarsOnCars loadAdminCarsBegin loadAdminCarsOnAnalytics bulkLoad
  simp [hmeta]

/-- C16: for cars with distinct identifiers none of which names a member of
`Object.prototype`, and any list of today's events, the mirror `bulkLoad`
builds has exactly the cars' identifiers as keys, and the entry of each car
holds its persisted `details_clicks` and `buy_clicks` (0 when missing), the
number of `view` events recorded for its key as `daily_details_clicks` and
the number of `contact_click` events as `daily_buy_clicks`; with rows that all
carry `meta`, an uninterrupted `loadAdminCars` leaves that mirror; the replay
of an event never changes a lifetime counter. Replaying a view and a contact
click of `"X"` gives it daily counters 1 and 1 with its lifetime counters
kept, and entity `"42"` with lifetime counters 10 and 3 and no events gives
`{10, 3, 0, 0}`. The mirror `loadAdminCars` leaves is another one in three
cases. A view of `"42"` notified while a reload awaits its cars query creates
the entry first, so step 2 passes the car over: its entry ends as
`{0, 0, 2, 0}`, the persisted 10 and 3 lost and the one view counted twice. A
car whose identifier is `"constructor"` gets no entry. A row without `meta`
makes the table render throw, so the replay and `initDailyStatsReset` are
skipped: the entry of `"42"` keeps `daily_details_clicks = 0` with one view
recorded, and no timer is started. -/
theorem bulkLoad_builds_mirror (cars : List Car) (events : List AnalyticsEvent) :
    ((cars.map (fun c => c.id)).Nodup →
      (∀ c ∈ cars, objectPrototypeNames.contains c.id = false) →
      (bulkLoad cars events).map Prod.fst = cars.map (fun c => c.id) ∧
      (∀ c ∈ cars, Mirror.get (bulkLoad cars events) c.id =
        some { details_clicks := c.details_clicks.getD 0
               buy_clicks := c.buy_clicks.getD 0
               daily_details_clicks := eventCount events c.id "view"
               daily_buy_clicks := eventCount events c.id "contact_click" })) ∧
    (renderAdminCarsTable cars = true → ∀ (w : World) (now : Int),
      loadAdminCars w now (.data (some cars)) (.data (some events)) =
        initDailyStatsReset
          { w with adminCars := cars, carAnalytics := bulkLoad cars events } now) ∧
    (∀ (m : Mirror) (ev : AnalyticsEvent) (k : String),
      (Mirror.get (replayEvent m ev) k).map (fun e => (e.details_clicks, e.buy_clicks)) =
        (Mirror.get m k).map (fun e => (e.details_clicks, e.buy_clicks))) ∧
    bulkLoad [⟨"X", some 7, none, true⟩]
        [⟨some "X", some "view"⟩, ⟨some "X", some "contact_click"⟩] =
      [("X", { details_clicks := 7, buy_clicks := 0, daily_details_clicks := 1,
               daily_buy_clicks := 1 })] ∧
    bulkLoad [⟨"42", some 10, some 3, true⟩] [] =
      [("42", { details_clicks := 10, buy_clicks := 3, daily_details_clicks := 0,
                daily_buy_clicks := 0 })] ∧
    (run initialWorld
      [.loadAdminCars 0 (.data (some [⟨"42", some 10, some 3, true⟩])) (.data (some [])),
       .loadAdminCarsBegin,
       .analyticsInsert ⟨some "42", some "view"⟩,
       .loadAdminCarsOnCars (.data (some [⟨"42", some 10, some 3, true⟩])),
       .loadAdminCarsOnAnalytics 1000 (.data (some [⟨some "42", some "view"⟩]))]).carAnalytics =
      [("42", { details_clicks := 0, buy_clicks := 0, daily_details_clicks := 2,
                daily_buy_clicks := 0 })] ∧
    bulkLoad [⟨"constructor", some 10, some 3, true⟩] [] = [] ∧
    (loadAdminCars initialWorld 0 (.data (some [⟨"42", some 10, some 3, false⟩]))
      (.data (some [⟨some "42", some "view"⟩]))).carAnalytics =
      [("42", { details_clicks := 10, buy_clicks := 3, daily_details_clicks := 0,
                daily_buy_clicks := 0 })] ∧
    (loadAdminCars initialWorld 0 (.data (some [⟨"42", some 10, some 3, false⟩]))
      (.data (some [⟨some "42", some "view"⟩]))).activeTimers = [] := by
  refine ⟨?_, fun hmeta w now => loadAdminCars_quiet w now cars events hmeta, ?_,
    by decide, by decide, by decide, by decide, by decide, by decide⟩
  · intro hdistinct hnames
    have hfresh : ∀ c ∈ cars, Mirror.truthy [] c.id = false := by
      intro c hc
      rw [mirror_truthy_eq, mirror_get_nil, hnames c hc]
      rfl
    obtain ⟨hkeys, hget, _⟩ := initAnalytics_spec cars [] hdistinct hfresh
    constructor
    · unfold bulkLoad
      rw [replay_keys, hkeys]
      simp
    · intro c hc
      unfold bulkLoad
      rw [replay_get, hget c hc]
      simp
  · intro m ev k
    rw [replayEvent_get]
    cases Mirror.get m k <;> rfl

/-! ## Events as additions -/

/-- What each handler does to the lookups of the mirror: the key named by
`eventDelta` gets the additions, counted from the zero entry when it had
none, unless `carAnalytics` holds an inherited member under it; every other
key is left alone. -/
theorem applyEvent_get (m : Mirror) (e : MirrorEvent) (k : String) :
    Mirror.get (applyEvent m e) k =
      match eventDelta e with
      | none => Mirror.get m k
      | some (id, d, dd, db) =>
        if k = id ∧ Mirror.inherits m id = false then
          some (addCounts d dd db ((Mirror.get m id).getD zeroEntry))
        else Mirror.get m k := by
  cases e with
  | viewTracked carId =>
    cases carId with
    | none => rfl
    | some id =>
      by_cases hid : id = ""
      · simp [applyEvent, handleCarViewTracked, eventDelta, hid]
      · simp only [applyEvent, handleCarViewTracked, eventDelta, hid, ne_eq, not_false_eq_true,
          if_true, mirror_get_modify, mirror_get_ensure]
        by_cases hk : k = id
        · cases hin : Mirror.inherits m id with
          | false => simp [hk, addCounts]
          | true => simp [hk, mirror_inherits_get m id hin]
        · simp [hk]
  | inserted payload =>
    obtain ⟨car_id, event_type⟩ := payload
    cases car_id with
    | none => rfl
    | some id =>
      cases event_type with
      | none => rfl
      | some ty =>
        by_cases hc : id ≠ "" ∧ ty ≠ ""
        · obtain ⟨hid, hty⟩ := hc
          simp only [applyEvent, subscribeToAnalyticsOnInsert, eventDelta, hid, hty, ne_eq,
            not_false_eq_true, and_self, if_true]
          by_cases hv : ty = "view"
          · simp only [hv, if_true, mirror_get_modify, mirror_get_ensure]
            by_cases hk : k = id
            · cases hin : Mirror.inherits m id with
              | false => simp [hk, addCounts]
              | true => simp [hk, mirror_inherits_get m id hin]
            · simp [hk]
          · by_cases hcc : ty = "contact_click"
            · subst hcc
              simp only [hv, if_true, if_false, mirror_get_modify, mirror_get_ensure]
              by_cases hk : k = id
              · cases hin : Mirror.inherits m id with
                | false => simp [hk, addCounts]
                | true => simp [hk, mirror_inherits_get m id hin]
              · simp [hk]
            · simp only [hv, hcc, if_false, mirror_get_ensure]
              by_cases hk : k = id
              · cases hin : Mirror.inherits m id with
                | false => simp [hk, addCounts]
                | true => simp [hk, mirror_inherits_get m id hin]
              · simp [hk]
        · simp only [applyEvent, subscribeToAnalyticsOnInsert, eventDelta, hc, if_false]

/-- No handler changes whether a key reaches an inherited member: an entry
is only ever created under a key that holds none. -/
theorem applyEvent_inherits (m : Mirror) (e : MirrorEvent) (k : String) :
    Mirror.inherits (applyEvent m e) k = Mirror.inherits m k := by
  have hget := applyEvent_get m e k
  cases hd : eventDelta e with
  | none =>
    rw [hd] at hget
    exact mirror_inherits_congr _ _ k hget
  | some r =>
    obtain ⟨id, d, dd, db⟩ := r
    rw [hd] at hget
    simp only at hget
    by_cases hk : k = id
    · subst hk
      cases hin : Mirror.inherits m k with
      | true =>
        simp only [hin, and_false, if_false, Bool.true_eq_false] at hget
        rw [mirror_inherits_congr _ _ k hget, hin]
      | false =>
        simp only [hin, and_self, if_true] at hget
        unfold Mirror.inherits
        rw [hget]
        rfl
    · simp only [hk, false_and, if_false] at hget
      exact mirror_inherits_congr _ _ k hget

/-! ## Double counting -/

/-- C21: for every mirror and non-empty identifier under which the mirror
holds no inherited member, one `view` applied once through
`handleCarViewTracked` and once through the remote notification raises that
identifier's `daily_details_clicks` by 2 (and its `details_clicks` by 1),
whichever of the two comes first; nothing removes the second count. Under an
identifier that names a member of `Object.prototype` and has no entry neither
handler creates one, so the pair leaves the mirror as it is and nothing is
counted: after the two handlers have run for `"constructor"` on the empty
mirror, in either order, it is still empty. -/
theorem view_counted_twice (m : Mirror) (id : String) :
    (id ≠ "" → Mirror.inherits m id = false →
      Mirror.get (subscribeToAnalyticsOnInsert (handleCarViewTracked m (some id))
          ⟨some id, some "view"⟩) id =
        some { details_clicks := ((Mirror.get m id).getD zeroEntry).details_clicks + 1
               buy_clicks := ((Mirror.get m id).getD zeroEntry).buy_clicks
               daily_details_clicks :=
                 ((Mirror.get m id).getD zeroEntry).daily_details_clicks + 2
               daily_buy_clicks := ((Mirror.get m id).getD zeroEntry).daily_buy_clicks } ∧
      Mirror.get (handleCarViewTracked (subscribeToAnalyticsOnInsert m ⟨some id, some "view"⟩)
          (some id)) id =
        some { details_clicks := ((Mirror.get m id).getD zeroEntry).details_clicks + 1
               buy_clicks := ((Mirror.get m id).getD zeroEntry).buy_clicks
               daily_details_clicks :=
                 ((Mirror.get m id).getD zeroEntry).daily_details_clicks + 2
               daily_buy_clicks := ((Mirror.get m id).getD zeroEntry).daily_buy_clicks }) ∧
    (id ≠ "" → Mirror.inherits m id = true →
      Mirror.get (subscribeToAnalyticsOnInsert (handleCarViewTracked m (some id))
          ⟨some id, some "view"⟩) id = none ∧
      Mirror.get (handleCarViewTracked (subscribeToAnalyticsOnInsert m ⟨some id, some "view"⟩)
          (some id)) id = none) ∧
    (Mirror.inherits [] "constructor" = true ∧
      subscribeToAnalyticsOnInsert (handleCarViewTracked [] (some "constructor"))
        ⟨some "constructor", some "view"⟩ = [] ∧
      handleCarViewTracked (subscribeToAnalyticsOnInsert [] ⟨some "constructor", some "view"⟩)
        (some "constructor") = []) := by
  have hview : ("view" : String) ≠ "" := by decide
  refine ⟨?_, ?_, by decide⟩
  · intro hid hown
    have hl : ∀ v : Mirror, Mirror.inherits v id = false →
        Mirror.get (handleCarViewTracked v (some id)) id =
          some (addCounts 1 1 0 ((Mirror.get v id).getD zeroEntry)) := by
      intro v hv
      have := applyEvent_get v (.viewTracked (some id)) id
      simpa [applyEvent, eventDelta, hid, hv] using this
    have hr : ∀ v : Mirror, Mirror.inherits v id = false →
        Mirror.get (subscribeToAnalyticsOnInsert v ⟨some id, some "view"⟩) id =
          some (addCounts 0 1 0 ((Mirror.get v id).getD zeroEntry)) := by
      intro v hv
      have := applyEvent_get v (.inserted ⟨some id, some "view"⟩) id
      simpa [applyEvent, eventDelta, hid, hview, hv] using this
    have hown1 : Mirror.inherits (handleCarViewTracked m (some id)) id = false := by
      have := applyEvent_inherits m (.viewTracked (some id)) id
      rw [← hown, ← this]
      rfl
    have hown2 : Mirror.inherits (subscribeToAnalyticsOnInsert m ⟨some id, some "view"⟩) id =
        false := by
      have := applyEvent_inherits m (.inserted ⟨some id, some "view"⟩) id
      rw [← hown, ← this]
      rfl
    constructor
    · rw [hr _ hown1, hl _ hown]
      simp only [Option.getD_some, addCounts, Option.some.injEq, AnalyticsEntry.mk.injEq]
      refine ⟨?_, trivial, ?_, ?_⟩ <;> omega
    · rw [hl _ hown2, hr _ hown]
      simp only [Option.getD_some, addCounts, Option.some.injEq, AnalyticsEntry.mk.injEq]
      refine ⟨?_, trivial, ?_, ?_⟩ <;> omega
  · intro hid hinh
    have hl : ∀ v : Mirror, Mirror.inherits v id = true →
        Mirror.get (handleCarViewTracked v (some id)) id = none := by
      intro v hv
      have := applyEvent_get v (.viewTracked (some id)) id
      simpa [applyEvent, eventDelta, hid, hv, mirror_inherits_get v id hv] using this
    have hr : ∀ v : Mirror, Mirror.inherits v id = true →
        Mirror.get (subscribeToAnalyticsOnInsert v ⟨some id, some "view"⟩) id = none := by
      intro v hv
      have := applyEvent_get v (.inserted ⟨some id, some "view"⟩) id
      simpa [applyEvent, eventDelta, hid, hview, hv, mirror_inherits_get v id hv] using this
    have hinh1 : Mirror.inherits (handleCarViewTracked m (some id)) id = true := by
      have := applyEvent_inherits m (.viewTracked (some id)) id
      rw [← hinh, ← this]
      rfl
    have hinh2 : Mirror.inherits (subscribeToAnalyticsOnInsert m ⟨some id, some "view"⟩) id =
        true := by
      have := applyEvent_inherits m (.inserted ⟨some id, some "view"⟩) id
      rw [← hinh, ← this]
      rfl
    exact ⟨hr _ hinh1, hl _ hinh2⟩

/-! ## Daily reset -/

theorem mirror_get_map_values (m : Mirror) (f : AnalyticsEntry → AnalyticsEntry) (k : String) :
    Mirror.get (m.map (fun p => (p.1, f p.2))) k = (Mirror.get m k).map f := by
  induction m with
  | nil => rfl
  | cons p rest ih =>
    obtain ⟨k0, e0⟩ := p
    simp only [List.map_cons]
    rw [mirror_get_cons, mirror_get_cons, ih]
    by_cases h : k0 = k <;> simp [h]

/-- C22: for every mirror, `resetDailyStats` keeps the keys, sets
`daily_details_clicks` and `daily_buy_clicks` to 0 in every entry, and keeps
every entry's `details_clicks` and `buy_clicks`. -/
theorem resetDailyStats_frame (m : Mirror) :
    (resetDailyStats m).map Prod.fst = m.map Prod.fst ∧
    (∀ p ∈ resetDailyStats m, p.2.daily_details_clicks = 0 ∧ p.2.daily_buy_clicks = 0) ∧
    (∀ k, Mirror.get (resetDailyStats m) k =
      (Mirror.get m k).map (fun e =>
        { details_clicks := e.details_clicks, buy_clicks := e.buy_clicks,
          daily_details_clicks := 0, daily_buy_clicks := 0 })) ∧
    (resetDailyStats m).map (fun p => (p.1, p.2.details_clicks, p.2.buy_clicks)) =
      m.map (fun p => (p.1, p.2.details_clicks, p.2.buy_clicks)) := by
  refine ⟨?_, ?_, ?_, ?_⟩
  · simp [resetDailyStats, List.map_map, Function.comp_def]
  · intro p hp
    simp only [resetDailyStats, List.mem_map] at hp
    obtain ⟨q, _, rfl⟩ := hp
    exact ⟨rfl, rfl⟩
  · intro k
    simpa [resetDailyStats] using
      mirror_get_map_values m (fun e => ⟨e.details_clicks, e.buy_clicks, 0, 0⟩) k
  · simp [resetDailyStats, List.map_map, Function.comp_def]

/-- C23: `resetDailyStats` is idempotent on the mirror. -/
theorem resetDailyStats_idempotent (m : Mirror) :
    resetDailyStats (resetDailyStats m) = resetDailyStats m := by
  simp [resetDailyStats, List.map_map, Function.comp_def]

/-- C24: `checkAndResetDailyStats` at time `now`: with no stored marker it
stores `now` and leaves the mirror; with a marker at least 24 hours old it
applies `resetDailyStats` to the mirror and overwrites the marker with `now`;
with a younger marker it changes neither. Nothing else changes in any case. -/
theorem checkAndResetDailyStats_cases (w : World) (now : Int) :
    (w.lastStatsReset = none →
      checkAndResetDailyStats w now = { w with lastStatsReset := some now }) ∧
    (∀ marker, w.lastStatsReset = some marker → 24 * 60 * 60 * 1000 ≤ now - marker →
      checkAndResetDailyStats w now =
        { w with carAnalytics := resetDailyStats w.carAnalytics, lastStatsReset := some now }) ∧
    (∀ marker, w.lastStatsReset = some marker → now - marker < 24 * 60 * 60 * 1000 →
      checkAndResetDailyStats w now = w) := by
  refine ⟨?_, ?_, ?_⟩
  · intro h
    simp [checkAndResetDailyStats, h]
  · intro marker h hge
    have hge1 : (86400000 : Int) ≤ now - marker := by omega
    simp [checkAndResetDailyStats, h, hge1]
  · intro marker h hlt
    have hnot : ¬ ((86400000 : Int) ≤ now - marker) := by omega
    simp [checkAndResetDailyStats, h, hnot]

/-- C25 on the code: the dashboard is loaded at time 0, which stores the
marker 0 and counts two events of today; 23 hours later the manual reset
button zeroes the daily counters and leaves the marker at 0, so the hourly
check one hour after that fires another reset, whereas a reset fired by the
hourly check stores its own time. -/
theorem manual_reset_keeps_marker :
    (run initialWorld [.loginSucceeded "admin" 0,
      .loadAdminCars 0 (.data (some [⟨"42", some 10, some 3, true⟩]))
        (.data (some [⟨some "42", some "view"⟩, ⟨some "42", some "contact_click"⟩]))]).lastStatsReset
      = some 0 ∧
    (resetStatsBtnClick (run initialWorld [.loginSucceeded "admin" 0,
      .loadAdminCars 0 (.data (some [⟨"42", some 10, some 3, true⟩]))
        (.data (some [⟨some "42", some "view"⟩, ⟨some "42", some "contact_click"⟩]))])
      true).carAnalytics = [("42", ⟨10, 3, 0, 0⟩)] ∧
    (resetStatsBtnClick (run initialWorld [.loginSucceeded "admin" 0,
      .loadAdminCars 0 (.data (some [⟨"42", some 10, some 3, true⟩]))
        (.data (some [⟨some "42", some "view"⟩, ⟨some "42", some "contact_click"⟩]))])
      true).lastStatsReset = some 0 ∧
    (checkAndResetDailyStats (run initialWorld [.loginSucceeded "admin" 0,
      .loadAdminCars 0 (.data (some [⟨"42", some 10, some 3, true⟩]))
        (.data (some [⟨some "42", some "view"⟩, ⟨some "42", some "contact_click"⟩]))])
      86400000).lastStatsReset = some 86400000 := by
  decide

/-! ## Order of events -/

theorem applyEvent_congr (m v : Mirror) (e : MirrorEvent) (h : MirrorEq m v) :
    MirrorEq (applyEvent m e) (applyEvent v e) := by
  intro k
  rw [applyEvent_get, applyEvent_get]
  cases eventDelta e with
  | none => exact h k
  | some r =>
    obtain ⟨id, d, dd, db⟩ := r
    simp only [h id, h k, mirror_inherits_congr m v id (h id)]

theorem applyEvent_comm (m : Mirror) (e1 e2 : MirrorEvent) :
    MirrorEq (applyEvent (applyEvent m e1) e2) (applyEvent (applyEvent m e2) e1) := by
  intro k
  rw [applyEvent_get (applyEvent m e1) e2 k, applyEvent_get (applyEvent m e2) e1 k]
  cases h1 : eventDelta e1 with
  | none =>
    cases h2 : eventDelta e2 with
    | none => simp only [applyEvent_get, h1, h2]
    | some r2 =>
      obtain ⟨id2, d2, dd2, db2⟩ := r2
      simp only [applyEvent_get, applyEvent_inherits, h1, h2]
  | some r1 =>
    obtain ⟨id1, d1, dd1, db1⟩ := r1
    cases h2 : eventDelta e2 with
    | none => simp only [applyEvent_get, applyEvent_inherits, h1, h2]
    | some r2 =>
      obtain ⟨id2, d2, dd2, db2⟩ := r2
      simp only [applyEvent_get, applyEvent_inherits, h1, h2]
      by_cases h12 : id1 = id2
      · subst h12
        by_cases hk : k = id1
        · cases hin : Mirror.inherits m id1 with
          | true => simp only [hk, and_false, if_false, Bool.true_eq_false]
          | false =>
            simp only [hk, and_self, if_true, Option.getD_some, addCounts, Option.some.injEq,
              AnalyticsEntry.mk.injEq]
            refine ⟨?_, trivial, ?_, ?_⟩ <;> omega
        · simp only [hk, false_and, if_false]
      · have h21 : ¬ id2 = id1 := fun h => h12 h.symm
        by_cases hk1 : k = id1
        · subst hk1
          simp only [h12, h21, true_and, false_and, if_false]
        · by_cases hk2 : k = id2
          · subst hk2
            simp only [h12, h21, hk1, true_and, false_and, if_false]
          · simp only [hk1, hk2, false_and, if_false]

theorem foldl_applyEvent_congr (es : List MirrorEvent) (m v : Mirror) (h : MirrorEq m v) :
    MirrorEq (es.foldl applyEvent m) (es.foldl applyEvent v) := by
  induction es generalizing m v with
  | nil => exact h
  | cons e rest ih => exact ih _ _ (applyEvent_congr m v e h)

theorem foldl_applyEvent_perm {es fs : List MirrorEvent} (hp : es.Perm fs) (m : Mirror) :
    MirrorEq (es.foldl applyEvent m) (fs.foldl applyEvent m) := by
  induction hp generalizing m with
  | nil => exact fun _ => rfl
  | cons e _ ih => exact ih (applyEvent m e)
  | swap e1 e2 rest =>
    exact foldl_applyEvent_congr rest _ _ (applyEvent_comm m e2 e1)
  | trans _ _ ih1 ih2 =>
    intro k
    exact (ih1 m k).trans (ih2 m k)

/-- C28: for every mirror and any two events, each a local `carViewTracked`
or a remote notification, applying them in either order leaves the same entry
under every key; hence after any finite batch of events the entry under every
key depends only on the multiset of events, not on the order of delivery. -/
theorem event_order_irrelevant (m : Mirror) :
    (∀ e1 e2 : MirrorEvent, ∀ k,
      Mirror.get (applyEvent (applyEvent m e1) e2) k =
        Mirror.get (applyEvent (applyEvent m e2) e1) k) ∧
    (∀ es fs : List MirrorEvent, es.Perm fs → ∀ k,
      Mirror.get (es.foldl applyEvent m) k = Mirror.get (fs.foldl applyEvent m) k) ∧
    (∀ carId payload,
      applyEvent m (.viewTracked carId) = handleCarViewTracked m carId ∧
      applyEvent m (.inserted payload) = subscribeToAnalyticsOnInsert m payload) :=
  ⟨fun e1 e2 => applyEvent_comm m e1 e2, fun _ _ hp => foldl_applyEvent_perm hp m,
    fun _ _ => ⟨rfl, rfl⟩⟩

/-! ## The warning invariant -/

theorem warningOk_step (w : World) (op : SessionOp) (tc t : Int)
    (h : WarningOk w tc) (hle : tc ≤ t) : WarningOk (sessionStep w op t) t := by
  unfold WarningOk at h ⊢
  cases op with
  | inactivityCheck =>
    simp only [sessionStep, inactivityCheck, SESSION_TIMEOUT, warningThreshold]
    split
    · intro hw
      rw [handleLogoutSync] at hw ⊢
      simp only [(clearSessionManagement_other w).2.1] at hw ⊢
      have := h hw
      omega
    · split
      · rename_i hleft hwarn
        split
        · intro _
          simp only
          omega
        · intro hw
          dsimp only at hw ⊢
          have := h hw
          omega
      · intro hw
        dsimp only at hw ⊢
        have := h hw
        omega
  | updateLastActivity =>
    simp only [sessionStep, updateLastActivity]
    cases hw0 : w.securityState.warningShown with
    | false => simp [hw0]
    | true =>
      simp only [Bool.not_true, Bool.false_eq_true, if_false]
      intro hw
      have := h hw
      omega
  | extendSession => simp [sessionStep, extendSession]
  | resetSessionBtnClick => simp [sessionStep, resetSessionBtnClick]

theorem warningOk_run (ops : List (SessionOp × Int)) (w : World) (tc : Int)
    (hclock : nonDecreasing (tc :: ops.map Prod.snd) = true) (h : WarningOk w tc) :
    WarningOk (sessionRun w ops) (lastTime tc ops) := by
  induction ops generalizing w tc with
  | nil => simpa [sessionRun, lastTime] using h
  | cons p rest ih =>
    obtain ⟨op, t⟩ := p
    simp only [List.map_cons, nonDecreasing, Bool.and_eq_true, decide_eq_true_eq] at hclock
    simp only [sessionRun, lastTime]
    exact ih _ t hclock.2 (warningOk_step w op tc t h hclock.1)

/-- C27: in every state reached from `setupSessionManagement` by inactivity
checks, `updateLastActivity`, `extendSession` and the manual reset button
under a clock that never runs backwards, if `warningShown` is true then the
time of the most recent operation minus `lastActivityTime` is at least 58
minutes. -/
theorem warning_only_in_last_two_minutes (w0 : World) (t0 : Int) (ops : List (SessionOp × Int))
    (hclock : nonDecreasing (t0 :: ops.map Prod.snd) = true)
    (hwarn : (sessionRun (setupSessionManagement w0 t0) ops).securityState.warningShown = true) :
    58 * 60 * 1000 ≤ lastTime t0 ops -
      toNumber (sessionRun (setupSessionManagement w0 t0) ops).securityState.lastActivityTime := by
  have hinit : WarningOk (setupSessionManagement w0 t0) t0 := by
    intro hw
    simp [setupSessionManagement, setInterval] at hw
  exact warningOk_run ops _ t0 hclock hinit hwarn

/-- The invariant of C27 on a session started at 0, checked at 58 minutes,
with some activity ten seconds later while the warning is shown. -/
theorem warning_only_in_last_two_minutes_witness :
    58 * 60 * 1000 ≤ lastTime 0 [(.inactivityCheck, 3480000), (.updateLastActivity, 3490000)] -
      toNumber (sessionRun (setupSessionManagement initialWorld 0)
        [(.inactivityCheck, 3480000), (.updateLastActivity, 3490000)]).securityState.lastActivityTime :=
  warning_only_in_last_two_minutes initialWorld 0
    [(.inactivityCheck, 3480000), (.updateLastActivity, 3490000)] (by decide) (by decide)

/-! ## The lockout message -/

/-- C30: whenever `handleAdminLogin` turns a submission away for lockout at
a time `now` not before `lastLoginAttempt`, it issues no authenticate call and
the number of minutes it reports,
`ceil((LOCKOUT_DURATION - (now - lastLoginAttempt)) / 60000)`, is between 0
and 15, and is 0 exactly when `now - lastLoginAttempt = LOCKOUT_DURATION`. -/
theorem lockout_remaining_minutes (w : World) (now later : Int) (email password : String)
    (auth : AuthResult)
    (hlocked : (isAdminLockedOut w.securityState now).2 = true)
    (hnow : toNumber w.securityState.lastLoginAttempt ≤ now) :
    (handleAdminLogin w now later email password auth).authenticateCalls = 0 ∧
    (handleAdminLogin w now later email password auth).world = w ∧
    0 ≤ lockoutRemainingTime w.securityState now ∧
    lockoutRemainingTime w.securityState now ≤ 15 ∧
    (lockoutRemainingTime w.securityState now = 0 ↔
      now - toNumber w.securityState.lastLoginAttempt = LOCKOUT_DURATION) := by
  have hl : w.securityState.isLockedOut = true := by
    cases hb : w.securityState.isLockedOut with
    | true => rfl
    | false => rw [isAdminLockedOut_unlocked _ _ hb] at hlocked; cases hlocked
  have hle : now - toNumber w.securityState.lastLoginAttempt ≤ LOCKOUT_DURATION := by
    by_contra hgt
    have hgt1 : now - toNumber w.securityState.lastLoginAttempt > LOCKOUT_DURATION :=
      not_le.mp hgt
    simp [isAdminLockedOut, hl, hgt1] at hlocked
  have hsub := submit_locked w ⟨now, later, email, password, auth⟩ hl hle
  simp only [submit] at hsub
  refine ⟨by rw [hsub], by rw [hsub], ?_, ?_, ?_⟩
  · unfold lockoutRemainingTime
    apply Int.ceil_nonneg
    apply div_nonneg
    · exact_mod_cast (by omega : (0 : Int) ≤
        LOCKOUT_DURATION - (now - toNumber w.securityState.lastLoginAttempt))
    · norm_num
  · unfold lockoutRemainingTime
    rw [Int.ceil_le, div_le_iff₀ (by norm_num)]
    have h15 : LOCKOUT_DURATION - (now - toNumber w.securityState.lastLoginAttempt)
        ≤ 15 * 60000 := by
      simp only [LOCKOUT_DURATION]
      omega
    exact_mod_cast h15
  · unfold lockoutRemainingTime
    constructor
    · intro h0
      have hc : Int.ceil (((LOCKOUT_DURATION -
          (now - toNumber w.securityState.lastLoginAttempt) : Int) : ℚ) / 60000) ≤ 0 :=
        le_of_eq h0
      rw [Int.ceil_le, div_le_iff₀ (by norm_num)] at hc
      have hc1 : LOCKOUT_DURATION - (now - toNumber w.securityState.lastLoginAttempt)
          ≤ 0 * 60000 := by exact_mod_cast hc
      omega
    · intro heq
      rw [heq]
      simp

/-- The message of C30 for five failures at time 0 and a sixth submission
exactly 15 minutes later: still turned away, with 0 minutes reported. -/
theorem lockout_remaining_minutes_witness :
    lockoutRemainingTime
      ({ initialWorld with
          securityState := (failedAttempts initialSecurityState [0, 0, 0, 0, 0]).1 } :
        World).securityState 900000 = 0 ∧
    (handleAdminLogin
      { initialWorld with securityState := (failedAttempts initialSecurityState [0, 0, 0, 0, 0]).1 }
      900000 900200 "admin@example.com" "Abc12345!" (.user "u1")).authenticateCalls = 0 :=
  ⟨(lockout_remaining_minutes
      { initialWorld with securityState := (failedAttempts initialSecurityState [0, 0, 0, 0, 0]).1 }
      900000 900200 "admin@example.com" "Abc12345!" (.user "u1")
      (by decide) (by decide)).2.2.2.2.mpr (by decide),
   (lockout_remaining_minutes
      { initialWorld with securityState := (failedAttempts initialSecurityState [0, 0, 0, 0, 0]).1 }
      900000 900200 "admin@example.com" "Abc12345!" (.user "u1")
      (by decide) (by decide)).1⟩

/-! ## The car form -/

/-- The run of `saveCar` reaches a write exactly when none of its six guards fires. -/
theorem saveCar_writes_guards (form : CarForm) (fullYear : Int) (editing : Bool) :
    (saveCar form fullYear editing).writes = 1 ↔
      ((jsTrim form.carMake.toList).isEmpty || (jsTrim form.carModel.toList).isEmpty ||
        !intTruthy form.carYear || !form.carPrice.truthy || !intTruthy form.carMileage ||
        !intTruthy form.carSeats) = false ∧
      (intLt form.carYear 1990 || intGt form.carYear fullYear) = false ∧
      form.carPrice.leZero = false ∧
      intLt form.carMileage 0 = false ∧
      (intLt form.carSeats 2 || intGt form.carSeats 9) = false ∧
      (form.uploadedCarImages.length == 0) = false := by
  unfold saveCar
  dsimp only
  generalize ((jsTrim form.carMake.toList).isEmpty || (jsTrim form.carModel.toList).isEmpty ||
        !intTruthy form.carYear || !form.carPrice.truthy || !intTruthy form.carMileage ||
        !intTruthy form.carSeats) = g1
  generalize (intLt form.carYear 1990 || intGt form.carYear fullYear) = g2
  generalize form.carPrice.leZero = g3
  generalize intLt form.carMileage 0 = g4
  generalize (intLt form.carSeats 2 || intGt form.carSeats 9) = g5
  generalize (form.uploadedCarImages.length == 0) = g6
  cases g1 <;> cases g2 <;> cases g3 <;> cases g4 <;> cases g5 <;> cases g6 <;> cases editing <;>
    simp [SaveResult.writes]

/-- C29: `saveCar` goes on to the backend write exactly when make and model
are non-empty after trimming, `1990 ≤ year ≤` the current year, `price > 0`,
`mileage > 0`, `2 ≤ seats ≤ 9` and at least one image is uploaded, a number
that did not parse counting as missing; a mileage of exactly 0 is turned away
as a missing required field, and a rejection issues no insert and no update. -/
theorem saveCar_writes_iff (form : CarForm) (fullYear : Int) (editing : Bool) :
    ((saveCar form fullYear editing).writes = 1 ↔
      jsTrim form.carMake.toList ≠ [] ∧ jsTrim form.carModel.toList ≠ [] ∧
      (∃ y, form.carYear = some y ∧ 1990 ≤ y ∧ y ≤ fullYear) ∧
      (form.carPrice = .posInf ∨ ∃ q, form.carPrice = .finite q ∧ 0 < q) ∧
      (∃ k, form.carMileage = some k ∧ 0 < k) ∧
      (∃ n, form.carSeats = some n ∧ 2 ≤ n ∧ n ≤ 9) ∧
      form.uploadedCarImages ≠ []) ∧
    (form.carMileage = some 0 →
      saveCar form fullYear editing = .rejected "Please fill in all required fields.") ∧
    (∀ toast, saveCar form fullYear editing = .rejected toast →
      (saveCar form fullYear editing).writes = 0) ∧
    ((saveCar form fullYear editing).writes = 1 →
      saveCar form fullYear editing = if editing then .update else .insert) := by
  refine ⟨?_, ?_, ?_, ?_⟩
  · rw [saveCar_writes_guards]
    obtain ⟨mk, md, yr, pr, mi, se, im⟩ := form
    dsimp only
    generalize jsTrim mk.toList = a
    generalize jsTrim md.toList = b
    cases yr <;> cases pr <;> cases mi <;> cases se <;>
      simp [intTruthy, intLt, intGt, JsNumber.truthy, JsNumber.leZero]
    · rename_i y q k n
      constructor
      · rintro ⟨⟨⟨⟨⟨⟨ha, hb⟩, _⟩, _⟩, hk⟩, _⟩, hyr, hq0, hk0, hs, him⟩
        exact ⟨ha, hb, hyr, hq0, by omega, hs, him⟩
      · rintro ⟨ha, hb, hyr, hq0, hk0, hs, him⟩
        exact ⟨⟨⟨⟨⟨⟨ha, hb⟩, by omega⟩, ne_of_gt hq0⟩, by omega⟩, by omega⟩, hyr, hq0, by omega,
          hs, him⟩
    · rename_i y k n
      constructor
      · rintro ⟨⟨⟨⟨⟨ha, hb⟩, _⟩, hk⟩, _⟩, hyr, hk0, hs, him⟩
        exact ⟨ha, hb, hyr, by omega, hs, him⟩
      · rintro ⟨ha, hb, hyr, hk0, hs, him⟩
        exact ⟨⟨⟨⟨⟨ha, hb⟩, by omega⟩, by omega⟩, by omega⟩, hyr, by omega, hs, him⟩
  · intro h0
    unfold saveCar
    simp [h0, intTruthy]
  · intro toast h
    rw [h]
    rfl
  · intro h
    unfold saveCar at h ⊢
    dsimp only at h ⊢
    split_ifs at h ⊢ <;> simp_all [SaveResult.writes]

/-! ## The password pattern -/

theorem passwordChar_range (c : Char) (h : passwordChar c = true) :
    33 ≤ c.toNat ∧ c.toNat ≤ 122 := by
  have hle : ∀ a b : Char, a ≤ b ↔ a.toNat ≤ b.toNat := fun _ _ => Iff.rfl
  simp only [passwordChar, isUpper, isLower, isDigit, isSymbol, Bool.or_eq_true,
    Bool.and_eq_true, decide_eq_true_eq, beq_iff_eq, hle] at h
  rcases h with ((h | h) | h) | h
  · have h1 : ('A' : Char).toNat = 65 := rfl
    have h2 : ('Z' : Char).toNat = 90 := rfl
    omega
  · have h1 : ('a' : Char).toNat = 97 := rfl
    have h2 : ('z' : Char).toNat = 122 := rfl
    omega
  · have h1 : ('0' : Char).toNat = 48 := rfl
    have h2 : ('9' : Char).toNat = 57 := rfl
    omega
  · rcases h with (((((h | h) | h) | h) | h) | h) | h <;> subst h <;> decide

/-- Where no line terminator occurs, the lookahead `(?=.*[cls])` is a search
of the whole string. -/
theorem lookaheadDotStar_eq_any (cls : Char → Bool) (s : List Char)
    (h : ∀ c ∈ s, isLineTerminator c = false) : lookaheadDotStar cls s = s.any cls := by
  induction s with
  | nil => rfl
  | cons c rest ih =>
    have hc := h c (List.mem_cons_self _ _)
    have ih1 := ih (fun x hx => h x (List.mem_cons_of_mem _ hx))
    simp [lookaheadDotStar, hc, ih1]

theorem utf16Length_eq_length (s : List Char) (h : ∀ c ∈ s, c.toNat < 65536) :
    utf16Length s = s.length := by
  induction s with
  | nil => rfl
  | cons c rest ih =>
    have hc := h c (List.mem_cons_self _ _)
    have ih1 := ih (fun x hx => h x (List.mem_cons_of_mem _ hx))
    have hnot : ¬ c.toNat ≥ 65536 := by omega
    unfold utf16Length at ih1 ⊢
    simp only [List.map_cons, List.sum_cons, List.length_cons, hnot, if_false, ih1]
    omega

theorem validatePasswordStrength_isValid_iff (p : String) :
    (validatePasswordStrength p).isValid = true ↔
      8 ≤ utf16Length p.toList ∧ p.toList.any isUpper = true ∧ p.toList.any isLower = true ∧
      p.toList.any isDigit = true ∧ p.toList.any isSymbol = true := by
  unfold validatePasswordStrength
  simp only [PASSWORD_MIN_LENGTH]
  generalize p.toList.any isUpper = b2
  generalize p.toList.any isLower = b3
  generalize p.toList.any isDigit = b4
  generalize p.toList.any isSymbol = b5
  generalize utf16Length p.toList = n
  by_cases h1 : 8 ≤ n
  · have h1n : ¬ n < 8 := Nat.not_lt.mpr h1
    cases b2 <;> cases b3 <;> cases b4 <;> cases b5 <;> simp [h1, h1n]
  · have h1n : n < 8 := Nat.not_le.mp h1
    cases b2 <;> cases b3 <;> cases b4 <;> cases b5 <;> simp [h1, h1n]

/-- C26, as stated, fails: `"Abc12345!#"` has ten characters, an uppercase
and a lowercase letter, a digit and the symbol `!`, so
`validatePasswordStrength` accepts it, but `PASSWORD_REGEX` does not match it,
because `#` is outside the class of its body. -/
theorem password_regex_rejects_valid_password :
    (validatePasswordStrength "Abc12345!#").isValid = true ∧
    PASSWORD_REGEX_test "Abc12345!#".toList = false := by
  decide

/-- C26, amended: `PASSWORD_REGEX` matches a password exactly when
`validatePasswordStrength` accepts it and every one of its characters is a
letter `A-Z` or `a-z`, a digit or a symbol of `@$!%*?&`; a match implies
`isValid`, not the other way round. -/
theorem password_regex_iff_valid_and_charset (p : String) :
    (PASSWORD_REGEX_test p.toList = true ↔
      (validatePasswordStrength p).isValid = true ∧
      ∀ c ∈ p.toList, passwordChar c = true) ∧
    (PASSWORD_REGEX_test p.toList = true → (validatePasswordStrength p).isValid = true) := by
  have key : PASSWORD_REGEX_test p.toList = true ↔
      (validatePasswordStrength p).isValid = true ∧
      ∀ c ∈ p.toList, passwordChar c = true := by
    rw [validatePasswordStrength_isValid_iff]
    generalize p.toList = s
    constructor
    · intro h
      simp only [PASSWORD_REGEX_test, classAtLeast, Bool.and_eq_true, decide_eq_true_eq,
        List.all_eq_true] at h
      obtain ⟨⟨⟨⟨hlo, hup⟩, hdi⟩, hsy⟩, hlen, hall⟩ := h
      have hterm : ∀ c ∈ s, isLineTerminator c = false := by
        intro c hc
        have := passwordChar_range c (hall c hc)
        simp only [isLineTerminator, Bool.or_eq_false_iff, beq_eq_false_iff_ne, ne_eq]
        refine ⟨⟨⟨?_, ?_⟩, ?_⟩, ?_⟩ <;> omega
      have hsmall : ∀ c ∈ s, c.toNat < 65536 := by
        intro c hc
        have := passwordChar_range c (hall c hc)
        omega
      rw [lookaheadDotStar_eq_any _ _ hterm] at hlo hup hdi hsy
      rw [utf16Length_eq_length s hsmall]
      exact ⟨⟨hlen, hup, hlo, hdi, hsy⟩, hall⟩
    · rintro ⟨⟨hlen, hup, hlo, hdi, hsy⟩, hall⟩
      have hterm : ∀ c ∈ s, isLineTerminator c = false := by
        intro c hc
        have := passwordChar_range c (hall c hc)
        simp only [isLineTerminator, Bool.or_eq_false_iff, beq_eq_false_iff_ne, ne_eq]
        refine ⟨⟨⟨?_, ?_⟩, ?_⟩, ?_⟩ <;> omega
      have hsmall : ∀ c ∈ s, c.toNat < 65536 := by
        intro c hc
        have := passwordChar_range c (hall c hc)
        omega
      rw [utf16Length_eq_length s hsmall] at hlen
      simp only [PASSWORD_REGEX_test, classAtLeast, Bool.and_eq_true, decide_eq_true_eq,
        List.all_eq_true, lookaheadDotStar_eq_any _ _ hterm]
      exact ⟨⟨⟨⟨hlo, hup⟩, hdi⟩, hsy⟩, hlen, hall⟩
  exact ⟨key, fun h => (key.mp h).1⟩

end Admin
